import Mathlib

/-!
Verification development for the voicebot appointment assistant
(`main.py`, `entity_extractor.py`, `database.py`).

The Python sources are shallowly embedded: each relevant Python function
is translated into an executable Lean definition operating on `List Char`
(Python `str`).  Python regular-expression searches are modelled by a
small matcher (`matchRA` / `searchRA`) covering exactly the constructs
the repository uses (literals, single optional literals, alternations of
literals, `.*`, `\s+`, `\s*`, `\w*`, a single `\s` character and `\b`),
together with dedicated leftmost-match parsing functions for the few
patterns that extract capture groups (dates, times).  `re.search`
semantics (leftmost starting position, greedy with backtracking inside a
position) are reproduced.

Boundary collaborators (the LLM, the MySQL database, `dateutil`'s fuzzy
date parser, wall-clock time) are passed in as explicit parameters, as
the spec prescribes for boundary interfaces.
-/

namespace Voicebot

/-! ### Character and string utilities (Python `str` helpers) -/

/-- Python whitespace for `\s`, `str.split()` and `str.strip()`:
space, tab, newline, carriage return, vertical tab, form feed. -/
def isSpaceC (c : Char) : Bool :=
  c == ' ' || c == '\t' || c == '\n' || c == '\r' ||
  c == Char.ofNat 11 || c == Char.ofNat 12

/-- ASCII word character for `\b` and `\w` (letters, digits, underscore). -/
def isWordC (c : Char) : Bool :=
  c.isAlpha || c.isDigit || c == '_'

/-- Lowercase a character list (ASCII, as the repository only handles ASCII). -/
def lowerL (s : List Char) : List Char := s.map Char.toLower

/-- Python `str.split()` with no argument: split on whitespace runs,
dropping empty pieces. -/
def pySplit (s : List Char) : List (List Char) :=
  (s.splitOnP isSpaceC).filter (fun w => !w.isEmpty)

/-- Python `str.strip()`. -/
def pyStrip (s : List Char) : List Char :=
  ((s.dropWhile isSpaceC).reverse.dropWhile isSpaceC).reverse

/-- Python `str.capitalize()`: first character uppercased, the rest lowercased. -/
def pyCapitalize (s : List Char) : List Char :=
  match s with
  | [] => []
  | c :: t => c.toUpper :: t.map Char.toLower

/-- Python `needle in haystack` (substring containment). -/
def containsSeq (n : List Char) : List Char → Bool
  | [] => n.isPrefixOf []
  | c :: t => n.isPrefixOf (c :: t) || containsSeq n t

/-- Containment of any needle from a list. -/
def containsAny (ns : List (List Char)) (h : List Char) : Bool :=
  ns.any (fun n => containsSeq n h)

/-- Decimal digit list of a natural number. -/
def natL (n : Nat) : List Char := (Nat.repr n).data

/-- Two-digit zero padding, Python `f"{n:02d}"` for naturals. -/
def pad2 (n : Nat) : List Char :=
  if n < 10 then '0' :: natL n else natL n

/-- Numeric value of a digit list, Python `int` on a digit string. -/
def natOfDigits (ds : List Char) : Nat :=
  ds.foldl (fun a c => a * 10 + (c.toNat - 48)) 0

/-! ### A small regex matcher

The repository uses `re.search` with patterns built from plain literal
text, `x?` on a single literal, literal alternations `(a|b|…)`, `.*`,
`\s+`, `\s*`, `\w*`, a single `\s` and word boundaries `\b`.  `RAtom`
covers exactly these constructs; `searchRA` is boolean `re.search`. -/

inductive RAtom where
  | lit (w : List Char)
  | optLit (w : List Char)
  | alts (ws : List (List Char))
  | star
  | ws1
  | ws0
  | wordStar
  | wsChar
  | wb
deriving Repr

/-- Size of an atom, used for the fuel bound of the matcher. -/
def atomSize : RAtom → Nat
  | .alts ws => ws.length + 1
  | _ => 1

/-- Size of an atom list. -/
def atomsSize (ps : List RAtom) : Nat :=
  ps.foldl (fun a p => a + atomSize p) 0

/-- Word-boundary test between the previously consumed character and the
head of the remaining text (`\b`). -/
def atBoundary (prev : Option Char) (cs : List Char) : Bool :=
  let a := match prev with | some c => isWordC c | none => false
  let b := match cs with | c :: _ => isWordC c | [] => false
  a != b

/-- Last character of a consumed literal, falling back to the previous one. -/
def lastOf (w : List Char) (prev : Option Char) : Option Char :=
  match w.getLast? with
  | some c => some c
  | none => prev

/-- Match a pattern (list of atoms) at the current position.  `prev` is the
character immediately before the position (for `\b`).  Alternatives are
tried with full backtracking, so the boolean agrees with `re.search`
success at this position.  The recursion is structural on an explicit
fuel so that the kernel can evaluate the matcher; every recursive call
decreases the lexicographic measure (atom-list size, text length), whose
depth is below `(atomsSize ps + 1) * (cs.length + 1)`, the fuel the
callers supply, so the fuel never runs out. -/
def matchRA (fuel : Nat) (ps0 : List RAtom) (prev : Option Char) (cs : List Char) : Bool :=
  match fuel with
  | 0 => false
  | fuel + 1 =>
    match ps0 with
    | [] => true
    | .lit w :: ps =>
        if w.isPrefixOf cs then matchRA fuel ps (lastOf w prev) (cs.drop w.length) else false
    | .optLit w :: ps =>
        (if w.isPrefixOf cs then matchRA fuel ps (lastOf w prev) (cs.drop w.length) else false)
        || matchRA fuel ps prev cs
    | .alts [] :: _ => false
    | .alts (w :: rest) :: ps =>
        (if w.isPrefixOf cs then matchRA fuel ps (lastOf w prev) (cs.drop w.length) else false)
        || matchRA fuel (.alts rest :: ps) prev cs
    | .star :: ps =>
        matchRA fuel ps prev cs ||
        (match cs with
         | [] => false
         | c :: t => if c == '\n' then false else matchRA fuel (.star :: ps) (some c) t)
    | .ws1 :: ps =>
        (match cs with
         | [] => false
         | c :: t =>
            if isSpaceC c then matchRA fuel ps (some c) t || matchRA fuel (.ws1 :: ps) (some c) t
            else false)
    | .ws0 :: ps =>
        matchRA fuel ps prev cs ||
        (match cs with
         | [] => false
         | c :: t => if isSpaceC c then matchRA fuel (.ws0 :: ps) (some c) t else false)
    | .wordStar :: ps =>
        matchRA fuel ps prev cs ||
        (match cs with
         | [] => false
         | c :: t => if isWordC c then matchRA fuel (.wordStar :: ps) (some c) t else false)
    | .wsChar :: ps =>
        (match cs with
         | [] => false
         | c :: t => if isSpaceC c then matchRA fuel ps (some c) t else false)
    | .wb :: ps =>
        if atBoundary prev cs then matchRA fuel ps prev cs else false

/-- Sufficient fuel for matching at one position. -/
def matchFuel (p : List RAtom) (cs : List Char) : Nat :=
  (atomsSize p + 1) * (cs.length + 1)

/-- Scan of `re.search`: try every starting position, left to right. -/
def searchFrom (p : List RAtom) : Option Char → List Char → Bool
  | prev, [] => matchRA (matchFuel p []) p prev []
  | prev, c :: t =>
      matchRA (matchFuel p (c :: t)) p prev (c :: t) || searchFrom p (some c) t

/-- Boolean `re.search(pattern, s)`. -/
def searchRA (p : List RAtom) (s : List Char) : Bool :=
  searchFrom p none s

/-- Shorthand for a literal atom. -/
def rlit (s : String) : RAtom := .lit s.data

/-- Generic leftmost scan for a parsing function: try the function at every
suffix, left to right, and return the first success.  This is the scanning
part of `re.search` for patterns with capture groups. -/
def scanPos {α : Type} (f : List Char → Option α) : List Char → Option α
  | [] => f []
  | c :: t =>
      match f (c :: t) with
      | some a => some a
      | none => scanPos f t

/-! ### Capture-group parsing helpers shared by the date/time patterns -/

/-- Lowercase ASCII letter test, the `[a-z]` character class. -/
def isLowerAsc (c : Char) : Bool := 'a' ≤ c && c ≤ 'z'

/-- Exactly two digits, Python `\d{2}`. -/
def grabD2 (cs : List Char) : Option (Nat × List Char) :=
  match cs with
  | a :: b :: t => if a.isDigit && b.isDigit then some (natOfDigits [a, b], t) else none
  | _ => none

/-- Exactly one digit. -/
def grabD1 (cs : List Char) : Option (Nat × List Char) :=
  match cs with
  | a :: t => if a.isDigit then some (natOfDigits [a], t) else none
  | _ => none

/-- Exactly four digits, Python `\d{4}`; keeps the digit characters so that
the captured group can be reprinted verbatim. -/
def grabD4 (cs : List Char) : Option (List Char × List Char) :=
  match cs with
  | a :: b :: c :: d :: t =>
      if a.isDigit && b.isDigit && c.isDigit && d.isDigit then some ([a, b, c, d], t) else none
  | _ => none

/-- One or more digits, Python `\d+` (greedy; every use in the sources is
followed by `\s`, so no backtracking into the run is needed). -/
def grabDPlus (cs : List Char) : Option (Nat × List Char) :=
  let ds := cs.takeWhile Char.isDigit
  if ds.isEmpty then none else some (natOfDigits ds, cs.drop ds.length)

/-- Required whitespace `\s+` (greedy; every following token in the sources
is a non-space, so greediness is deterministic). -/
def ws1L (cs : List Char) : Option (List Char) :=
  match cs with
  | c :: t => if isSpaceC c then some (t.dropWhile isSpaceC) else none
  | [] => none

/-- Optional ordinal suffix `(st|nd|rd|th)?` (consume if present; the
following token in every use is a comma, whitespace or the pattern end,
so consuming greedily matches `re` behaviour). -/
def dropOrd (cs : List Char) : List Char :=
  if ("st".data).isPrefixOf cs then cs.drop 2
  else if ("nd".data).isPrefixOf cs then cs.drop 2
  else if ("rd".data).isPrefixOf cs then cs.drop 2
  else if ("th".data).isPrefixOf cs then cs.drop 2
  else cs

/-- Non-capturing `(?:,|\s)`. -/
def commaOrWs (cs : List Char) : Option (List Char) :=
  match cs with
  | c :: t => if c == ',' || isSpaceC c then some t else none
  | [] => none

/-- The am/pm alternation `(am|pm|a\.m\.|p\.m\.)`, in the source order,
returning the matched marker and the rest. -/
def parsePeriodL (cs : List Char) : Option (List Char) :=
  if ("am".data).isPrefixOf cs then some "am".data
  else if ("pm".data).isPrefixOf cs then some "pm".data
  else if ("a.m.".data).isPrefixOf cs then some "a.m.".data
  else if ("p.m.".data).isPrefixOf cs then some "p.m.".data
  else none

/-! ### Time pattern of `EntityExtractor._extract_time`

Pattern 1: `(\d{1,2})[:.h]?(\d{2})?\s*(am|pm|a\.m\.|p\.m\.)`
Pattern 2: `(\d{1,2})\s*(am|pm|a\.m\.|p\.m\.)`
both searched leftmost with backtracking inside a position. -/

/-- Tail of time pattern 1 after the optional minutes: `\s*` then the
am/pm marker. -/
def tpAfterMin (h m : Nat) (cs : List Char) : Option (Nat × Nat × List Char) :=
  match parsePeriodL (cs.dropWhile isSpaceC) with
  | some mk => some (h, m, mk)
  | none => none

/-- Optional two-digit minutes `(\d{2})?` of time pattern 1 (greedy:
try with minutes first, then without). -/
def tpMinOpt (h : Nat) (cs : List Char) : Option (Nat × Nat × List Char) :=
  (match grabD2 cs with
   | some (m, t) => tpAfterMin h m t
   | none => none)
  <|> tpAfterMin h 0 cs

/-- Optional separator `[:.h]?` of time pattern 1 (greedy: try consuming it
first, then not). -/
def tpSepOpt (h : Nat) (cs : List Char) : Option (Nat × Nat × List Char) :=
  match cs with
  | c :: t =>
      if c == ':' || c == '.' || c == 'h' then tpMinOpt h t <|> tpMinOpt h cs
      else tpMinOpt h cs
  | [] => tpMinOpt h []

/-- Time pattern 1 anchored at the current position: `\d{1,2}` greedy
(two digits, then one) followed by the tail. -/
def tpStart (cs : List Char) : Option (Nat × Nat × List Char) :=
  (match grabD2 cs with
   | some (h, t) => tpSepOpt h t
   | none => none)
  <|> (match grabD1 cs with
       | some (h, t) => tpSepOpt h t
       | none => none)

/-- Leftmost search for time pattern 1. -/
def search12 (s : List Char) : Option (Nat × Nat × List Char) :=
  scanPos tpStart s

/-- Tail of time pattern 2 after the hour digits: `\s*` then the marker. -/
def tsAfter (h : Nat) (t : List Char) : Option (Nat × List Char) :=
  match parsePeriodL (t.dropWhile isSpaceC) with
  | some mk => some (h, mk)
  | none => none

/-- Time pattern 2 anchored at the current position. -/
def tsStart (cs : List Char) : Option (Nat × List Char) :=
  (match grabD2 cs with
   | some (h, t) => tsAfter h t
   | none => none)
  <|> (match grabD1 cs with
       | some (h, t) => tsAfter h t
       | none => none)

/-- Leftmost search for time pattern 2. -/
def searchSimple (s : List Char) : Option (Nat × List Char) :=
  scanPos tsStart s

/-! ### The loose time pattern of the `showing_availability` branch

`(\d{1,2}):?(\d{2})?\s*(am|pm|a\.m\.|p\.m\.)?` — everything after the hour
digits is optional, so the pattern matches at the first digit. -/

/-- Tail of the loose pattern after the hour: optional colon, optional
two-digit minutes, `\s*`, optional marker.  All optional pieces are
greedy and their followers are disjoint, so consumption is deterministic. -/
def tlTail (h : Nat) (cs : List Char) : Nat × Nat × Option (List Char) :=
  let cs1 := match cs with
    | ':' :: t => t
    | _ => cs
  match grabD2 cs1 with
  | some (m, t) => (h, m, parsePeriodL (t.dropWhile isSpaceC))
  | none => (h, 0, parsePeriodL (cs1.dropWhile isSpaceC))

/-- Loose time pattern anchored at the current position. -/
def tlStart (cs : List Char) : Option (Nat × Nat × Option (List Char)) :=
  (match grabD2 cs with
   | some (h, t) => some (tlTail h t)
   | none => none)
  <|> (match grabD1 cs with
       | some (h, t) => some (tlTail h t)
       | none => none)

/-- Leftmost search for the loose time pattern. -/
def searchLoose (s : List Char) : Option (Nat × Nat × Option (List Char)) :=
  scanPos tlStart s

/-! ### Date patterns of `EntityExtractor._extract_date`

For a fixed month name `mo` the four patterns are
1. `mo\s+(\d{1,2})(st|nd|rd|th)?(?:,|\s)\s*(\d{4})`
2. `(\d{1,2})(st|nd|rd|th)?\s+(?:of\s+)?mo(?:,|\s)\s*(\d{4})`
3. `mo\s+(\d{1,2})(st|nd|rd|th)?`
4. `(\d{1,2})(st|nd|rd|th)?\s+(?:of\s+)?mo` -/

/-- Tail `(?:,|\s)\s*(\d{4})` shared by date patterns 1 and 2. -/
def dpYearTail (cs : List Char) : Option (List Char) :=
  match commaOrWs cs with
  | some t => (grabD4 (t.dropWhile isSpaceC)).map (fun p => p.1)
  | none => none

/-- Optional `(?:of\s+)?` (try consuming `of` plus whitespace first,
then not, as `re` backtracking does). -/
def ofOpt {α : Type} (cont : List Char → Option α) (cs : List Char) : Option α :=
  (if ("of".data).isPrefixOf cs then
     match ws1L (cs.drop 2) with
     | some t => cont t
     | none => none
   else none)
  <|> cont cs

/-- Date pattern 1 anchored at the current position; returns (day, year digits). -/
def dp1At (mo : List Char) (cs : List Char) : Option (Nat × List Char) :=
  if mo.isPrefixOf cs then
    match ws1L (cs.drop mo.length) with
    | some r =>
        (match grabD2 r with
         | some (d, r2) => (dpYearTail (dropOrd r2)).map (fun y => (d, y))
         | none => none)
        <|> (match grabD1 r with
             | some (d, r2) => (dpYearTail (dropOrd r2)).map (fun y => (d, y))
             | none => none)
    | none => none
  else none

/-- Tail of date pattern 2 after the day: `\s+(?:of\s+)?mo(?:,|\s)\s*(\d{4})`. -/
def dp2Tail (mo : List Char) (cs : List Char) : Option (List Char) :=
  match ws1L cs with
  | some t =>
      ofOpt (fun r =>
        if mo.isPrefixOf r then dpYearTail (r.drop mo.length) else none) t
  | none => none

/-- Date pattern 2 anchored at the current position; returns (day, year digits). -/
def dp2At (mo : List Char) (cs : List Char) : Option (Nat × List Char) :=
  (match grabD2 cs with
   | some (d, r) => (dp2Tail mo (dropOrd r)).map (fun y => (d, y))
   | none => none)
  <|> (match grabD1 cs with
       | some (d, r) => (dp2Tail mo (dropOrd r)).map (fun y => (d, y))
       | none => none)

/-- Date pattern 3 anchored at the current position; returns the day. -/
def dp3At (mo : List Char) (cs : List Char) : Option Nat :=
  if mo.isPrefixOf cs then
    match ws1L (cs.drop mo.length) with
    | some r =>
        (match grabD2 r with
         | some (d, _) => some d
         | none => none)
        <|> (match grabD1 r with
             | some (d, _) => some d
             | none => none)
    | none => none
  else none

/-- Tail of date pattern 4 after the day: `\s+(?:of\s+)?mo`. -/
def dp4Tail (mo : List Char) (cs : List Char) : Option Unit :=
  match ws1L cs with
  | some t => ofOpt (fun r => if mo.isPrefixOf r then some () else none) t
  | none => none

/-- Date pattern 4 anchored at the current position; returns the day. -/
def dp4At (mo : List Char) (cs : List Char) : Option Nat :=
  (match grabD2 cs with
   | some (d, r) => (dp4Tail mo (dropOrd r)).map (fun _ => d)
   | none => none)
  <|> (match grabD1 cs with
       | some (d, r) => (dp4Tail mo (dropOrd r)).map (fun _ => d)
       | none => none)

/-! ### Ad-hoc boolean searches used by the validation guards -/

/-- Search for `\d{4}-\d{2}-\d{2}` (ISO date contamination guard). -/
def isoAt (cs : List Char) : Option Unit :=
  match cs with
  | a :: b :: c :: d :: '-' :: e :: f :: '-' :: g :: h :: _ =>
      if a.isDigit && b.isDigit && c.isDigit && d.isDigit && e.isDigit && f.isDigit
         && g.isDigit && h.isDigit then some () else none
  | _ => none

/-- Boolean search for an ISO date pattern. -/
def hasIsoDate (s : List Char) : Bool :=
  (scanPos isoAt s).isSome

/-- Search for `\d{1,2}:\d{2}` (time contamination guard on person names). -/
def hmAt (cs : List Char) : Option Unit :=
  match cs with
  | a :: b :: ':' :: c :: d :: _ =>
      if a.isDigit && b.isDigit && c.isDigit && d.isDigit then some () else none
  | a :: ':' :: c :: d :: _ =>
      if a.isDigit && c.isDigit && d.isDigit then some () else none
  | _ => none

/-- Boolean search for an `H:MM`/`HH:MM` pattern. -/
def hasHmTime (s : List Char) : Bool :=
  (scanPos hmAt s).isSome

/-! ### Calendar model for Python `datetime`

Modelled from the spec: the sources use the standard-library
`datetime`/`calendar` modules (proleptic Gregorian calendar,
`weekday()` with 0 = Monday … 6 = Sunday).  The weekday is carried as an
explicit field and advanced consistently by the day arithmetic. -/

structure PyDate where
  year : Nat
  month : Nat
  day : Nat
  weekday : Nat
deriving Repr, DecidableEq

/-- Gregorian leap-year rule. -/
def isLeap (y : Nat) : Bool :=
  (y % 4 == 0 && y % 100 != 0) || y % 400 == 0

/-- Length of a month, `calendar.monthrange(y, m)[1]`. -/
def daysInMonth (y m : Nat) : Nat :=
  if m == 2 then (if isLeap y then 29 else 28)
  else if m == 4 || m == 6 || m == 9 || m == 11 then 30
  else 31

/-- Python `datetime.weekday()` computed from the date fields by Zeller's
congruence (0 = Monday … 6 = Sunday). -/
def zellerWeekday (y m d : Nat) : Nat :=
  let y' := if m ≤ 2 then y - 1 else y
  let m' := if m ≤ 2 then m + 12 else m
  let k := y' % 100
  let j := y' / 100
  let h := (d + (13 * (m' + 1)) / 5 + k + k / 4 + j / 4 + 5 * j) % 7
  (h + 5) % 7

/-- Construct a date with a consistent weekday field. -/
def mkDate (y m d : Nat) : PyDate :=
  ⟨y, m, d, zellerWeekday y m d⟩

/-- The day after a date (`timedelta(days=1)`). -/
def nextDay (d : PyDate) : PyDate :=
  let wd := (d.weekday + 1) % 7
  if d.day < daysInMonth d.year d.month then ⟨d.year, d.month, d.day + 1, wd⟩
  else if d.month < 12 then ⟨d.year, d.month + 1, 1, wd⟩
  else ⟨d.year + 1, 1, 1, wd⟩

/-- The day before a date. -/
def prevDay (d : PyDate) : PyDate :=
  let wd := (d.weekday + 6) % 7
  if 1 < d.day then ⟨d.year, d.month, d.day - 1, wd⟩
  else if 1 < d.month then ⟨d.year, d.month - 1, daysInMonth d.year (d.month - 1), wd⟩
  else ⟨d.year - 1, 12, 31, wd⟩

/-- Adding days, `date + timedelta(days=n)`. -/
def addDays (d : PyDate) : Nat → PyDate
  | 0 => d
  | n + 1 => addDays (nextDay d) n

/-- Subtracting days, `date - timedelta(days=n)`. -/
def subDays (d : PyDate) : Nat → PyDate
  | 0 => d
  | n + 1 => subDays (prevDay d) n

/-- Adding calendar months, `relativedelta(months=n)`: roll the month and
clamp the day to the target month length. -/
def addMonths (d : PyDate) (n : Nat) : PyDate :=
  let t := d.month - 1 + n
  let y := d.year + t / 12
  let m := t % 12 + 1
  mkDate y m (min d.day (daysInMonth y m))

/-- Full weekday names, `%A`, indexed by `weekday()`. -/
def weekdayName (n : Nat) : List Char :=
  match n with
  | 0 => "Monday".data
  | 1 => "Tuesday".data
  | 2 => "Wednesday".data
  | 3 => "Thursday".data
  | 4 => "Friday".data
  | 5 => "Saturday".data
  | _ => "Sunday".data

/-- Full month names, `%B`. -/
def monthName (n : Nat) : List Char :=
  match n with
  | 1 => "January".data
  | 2 => "February".data
  | 3 => "March".data
  | 4 => "April".data
  | 5 => "May".data
  | 6 => "June".data
  | 7 => "July".data
  | 8 => "August".data
  | 9 => "September".data
  | 10 => "October".data
  | 11 => "November".data
  | _ => "December".data

/-! ### `identify_intent` (entity_extractor.py lines 331-437) -/

/-- Apostrophe character, kept out of string literals. -/
def apos : Char := Char.ofNat 39

/-- Pattern list `schedule_patterns`. -/
def schedulePatternsRA : List (List RAtom) :=
  [[rlit "schedule a", .optLit ['n'], rlit " appointment"],
   [rlit "book a", .optLit ['n'], rlit " appointment"],
   [rlit "make a", .optLit ['n'], rlit " appointment"],
   [rlit "set up a", .optLit ['n'], rlit " appointment"],
   [rlit "create a", .optLit ['n'], rlit " appointment"],
   [rlit "schedule a meeting"],
   [rlit "schedule ", .star, rlit " with"],
   [rlit "book ", .star, rlit " with"],
   [rlit "make ", .star, rlit " with"],
   [rlit "schedule ", .star, rlit " for"],
   [rlit "book ", .star, rlit " for"],
   [rlit "make ", .star, rlit " for"]]

/-- Pattern list `cancel_patterns`. -/
def cancelPatternsRA : List (List RAtom) :=
  [[rlit "cancel a", .optLit ['n'], rlit " appointment"],
   [rlit "cancel ", .star, rlit " meeting"],
   [rlit "cancel ", .star, rlit " with"],
   [rlit "remove a", .optLit ['n'], rlit " appointment"],
   [rlit "delete a", .optLit ['n'], rlit " appointment"],
   [rlit "wanto cancel"],
   [rlit "want to cancel"],
   [rlit "need to cancel"],
   [rlit "don", .optLit [apos], rlit "t want the appointment"]]

/-- Pattern list `check_availability_patterns`. -/
def checkAvailabilityPatternsRA : List (List RAtom) :=
  [[rlit "check availability"],
   [rlit "check availibility"],
   [rlit "when ", .star, rlit " available"],
   [rlit "what times are available"],
   [rlit "available times"],
   [rlit "is ", .star, rlit " available"],
   [rlit "can ", .star, rlit " meet"],
   [rlit "availability of"],
   [rlit "availibility of"],
   [rlit "when can ", .star, rlit " meet"],
   [rlit "check when"],
   [rlit "not schedule ", .star, rlit " check"]]

/-- Pattern list `list_appointments_patterns`. -/
def listAppointmentsPatternsRA : List (List RAtom) :=
  [[rlit "list appointments"],
   [rlit "show appointments"],
   [rlit "what appointments"],
   [rlit "my appointments"],
   [rlit "my schedule"],
   [rlit "view ", .star, rlit " appointments"]]

/-- Pattern list `knowledge_patterns`. -/
def knowledgePatternsRA : List (List RAtom) :=
  [[rlit "what is"], [rlit "what are"], [rlit "who is"], [rlit "who are"],
   [rlit "how does"], [rlit "how do"], [rlit "explain"], [rlit "tell me about"],
   [rlit "when was"], [rlit "when is"], [rlit "where is"], [rlit "where are"],
   [rlit "why is"], [rlit "why are"], [rlit "define"], [rlit "definition"],
   [rlit "defination"], [rlit "meaning of"], [rlit "what does"],
   [rlit "tell me more"], [rlit "can you explain"]]

/-- Whether any pattern of a family matches (a `for`/`re.search`/`return`
loop in the source). -/
def anyPatt (fam : List (List RAtom)) (t : List Char) : Bool :=
  fam.any (fun p => searchRA p t)

/-- `identify_intent` from entity_extractor.py: families checked in the
source order knowledge, check_availability, cancel, schedule, list. -/
def identify_intent (text : String) : String :=
  let t := lowerL text.data
  if anyPatt knowledgePatternsRA t then "knowledge"
  else if anyPatt checkAvailabilityPatternsRA t then "check_availability"
  else if anyPatt cancelPatternsRA t then "cancel_appointment"
  else if anyPatt schedulePatternsRA t then "schedule_appointment"
  else if anyPatt listAppointmentsPatternsRA t then "list_appointments"
  else "unknown"

/-- Modelled from the spec (section 4.1): ordered pattern families with
fixed precedence, first family with any matching pattern wins, `unknown`
otherwise.  Used as the specification side of the refinement claim C5. -/
def intentFamiliesInOrder : List (String × List (List RAtom)) :=
  [("knowledge", knowledgePatternsRA),
   ("check_availability", checkAvailabilityPatternsRA),
   ("cancel_appointment", cancelPatternsRA),
   ("schedule_appointment", schedulePatternsRA),
   ("list_appointments", listAppointmentsPatternsRA)]

/-- Specification-side classifier: walk the ordered families and return the
label of the first family with a matching pattern. -/
def classifyByOrderedFamilies : List (String × List (List RAtom)) → List Char → String
  | [], _ => "unknown"
  | (lbl, fam) :: rest, t =>
      if anyPatt fam t then lbl else classifyByOrderedFamilies rest t

/-! ### Entity extractor word lists (entity_extractor.py lines 19-38) -/

/-- Membership of a (lowercased) word in a Python string list. -/
def memW (w : List Char) (l : List String) : Bool :=
  l.any (fun s => s.data == w)

/-- List `temporal_words`. -/
def temporalWords : List String :=
  ["next", "last", "this", "tomorrow", "today", "yesterday",
   "monday", "tuesday", "wednesday", "thursday", "friday", "saturday", "sunday",
   "january", "february", "march", "april", "may", "june",
   "july", "august", "september", "october", "november", "december",
   "week", "month", "year", "am", "pm", "morning", "afternoon", "evening", "night"]

/-- List `stop_words`. -/
def stopWords : List String :=
  ["with", "for", "at", "on", "in", "the", "and", "or", "but", "because", "as",
   "hi", "hello", "hey", "can", "could", "would", "will", "shall", "must", "should",
   "may", "might", "do", "does", "did", "has", "have", "had", "is", "am", "are",
   "was", "were", "be", "been", "being", "you", "your", "me", "my", "i", "we", "us",
   "please", "thanks", "thank", "want", "need", "like", "help", "an", "a", "to", "from",
   "by", "of", "it", "its", "they", "their", "them", "there", "here", "where", "when", "how"]

/-- List `domain_specific_words`. -/
def domainSpecificWords : List String :=
  ["appointment", "schedule", "book", "make", "set", "get", "find",
   "check", "show", "list", "cancel", "reschedule", "time", "date",
   "meeting", "consultation", "session", "visit", "call", "talk",
   "availability", "availibility", "available", "free", "busy", "slot", "opening"]

/-- Test excluding all three word lists. -/
def notExcludedWord (w : List Char) : Bool :=
  !memW w stopWords && !memW w temporalWords && !memW w domainSpecificWords

/-! ### Person-name patterns (entity_extractor.py lines 61-138)

Shared shape: `KW\s+((?:dr|mr|mrs|ms|miss|prof)\.?\s+)?([A-Za-z][a-z]+)(?:\s+([A-Za-z][a-z]+))?`
with `KW` one of `(?:of|for)`, `with`, `for`, `see`. -/

/-- Honorific alternation, in source order. -/
def titleAlts : List String := ["dr", "mr", "mrs", "ms", "miss", "prof"]

/-- Parse the optional honorific group, returning the captured text (without
the trailing whitespace, which `strip()` removes anyway) and the rest. -/
def parseTitle (cs : List Char) : Option (List Char × List Char) :=
  titleAlts.firstM (fun tS =>
    let t := tS.data
    if t.isPrefixOf cs then
      let r := cs.drop t.length
      match r with
      | '.' :: r2 =>
          (match ws1L r2 with
           | some r3 => some (t ++ ['.'], r3)
           | none => none)
      | _ =>
          (match ws1L r with
           | some r3 => some (t, r3)
           | none => none)
    else none)

/-- Parse a name token `[A-Za-z][a-z]+` (greedy). -/
def parseNameTok (cs : List Char) : Option (List Char × List Char) :=
  match cs with
  | c :: t =>
      if c.isAlpha then
        let body := t.takeWhile isLowerAsc
        if body.isEmpty then none else some (c :: body, t.drop body.length)
      else none
  | [] => none

/-- Parse the optional last-name group `(?:\s+([A-Za-z][a-z]+))?`. -/
def parseLastOpt (cs : List Char) : Option (List Char) :=
  match cs with
  | c :: _ =>
      if isSpaceC c then (parseNameTok (cs.dropWhile isSpaceC)).map (fun p => p.1)
      else none
  | [] => none

/-- Parse the name tail after the keyword and its whitespace: optional title,
first name, optional last name, with `re`-style backtracking out of a failed
title group into the bare first name. -/
def parseNameTail (cs : List Char) :
    Option (Option (List Char) × List Char × Option (List Char)) :=
  (match parseTitle cs with
   | some (tt, r) =>
      (match parseNameTok r with
       | some (f, r2) => some (some tt, f, parseLastOpt r2)
       | none => none)
   | none => none)
  <|> (match parseNameTok cs with
       | some (f, r2) => some (none, f, parseLastOpt r2)
       | none => none)

/-- Try a list of keywords (the `(?:of|for)` alternation in source order)
at the current position. -/
def tryNameKws (kws : List (List Char)) (cs : List Char) :
    Option (Option (List Char) × List Char × Option (List Char)) :=
  kws.firstM (fun kw =>
    if kw.isPrefixOf cs then
      match ws1L (cs.drop kw.length) with
      | some r => parseNameTail r
      | none => none
    else none)

/-- Leftmost search for a keyword name pattern over the lowercased text. -/
def searchNameKw (kws : List (List Char)) (s : List Char) :
    Option (Option (List Char) × List Char × Option (List Char)) :=
  scanPos (tryNameKws kws) s

/-- Join with single spaces, Python `" ".join`. -/
def joinSp (parts : List (List Char)) : List Char :=
  match parts with
  | [] => []
  | p :: rest => p ++ rest.foldl (fun a q => a ++ ' ' :: q) []

/-- Build the person string from a leftmost match of a keyword name pattern,
applying the stop-word filters of the source (lines 63-78 and clones). -/
def personFromMatch
    (m : Option (Option (List Char) × List Char × Option (List Char))) :
    Option (List Char) :=
  match m with
  | none => none
  | some (tt, first, last) =>
      if notExcludedWord first then
        let parts0 : List (List Char) :=
          match tt with
          | some t => [pyCapitalize (pyStrip t)]
          | none => []
        let parts1 := parts0 ++ [pyCapitalize first]
        let parts2 :=
          match last with
          | some l => if notExcludedWord l then parts1 ++ [pyCapitalize l] else parts1
          | none => parts1
        some (joinSp parts2)
      else none

/-! ### `EntityExtractor._extract_time` (lines 233-273) -/

/-- Format `f"{hour:02d}:{minute:02d}"`. -/
def fmtHM (h m : Nat) : List Char :=
  pad2 h ++ ':' :: pad2 m

/-- The 12-to-24-hour conversion applied after a successful match. -/
def convertHour (h : Nat) (mk : List Char) : Nat :=
  if mk.headD ' ' == 'p' && h < 12 then h + 12
  else if mk.headD ' ' == 'a' && h == 12 then 0
  else h

/-- Second half of `_extract_time`: the hour-only pattern. -/
def extractTimeSimple (tl : List Char) : Option String :=
  match searchSimple tl with
  | some (h, mk) =>
      if 1 ≤ h && h ≤ 12 then some (String.mk (fmtHM (convertHour h mk) 0))
      else none
  | none => none

/-- `EntityExtractor._extract_time`: 12-hour pattern with optional minutes
first; on no match or range failure fall through to the hour-only pattern. -/
def ee_extract_time (text : String) : Option String :=
  let tl := lowerL text.data
  match search12 tl with
  | some (h, m, mk) =>
      if 1 ≤ h && h ≤ 12 && m ≤ 59 then some (String.mk (fmtHM (convertHour h mk) m))
      else extractTimeSimple tl
  | none => extractTimeSimple tl

/-! ### `EntityExtractor._extract_date` (lines 165-231) -/

/-- Month names with their indices, in the order of the source loop
`months + month_abbr` with `month_idx` computed from the list position. -/
def monthsWithIdx : List (List Char × Nat) :=
  [("january".data, 1), ("february".data, 2), ("march".data, 3), ("april".data, 4),
   ("may".data, 5), ("june".data, 6), ("july".data, 7), ("august".data, 8),
   ("september".data, 9), ("october".data, 10), ("november".data, 11), ("december".data, 12),
   ("jan".data, 1), ("feb".data, 2), ("mar".data, 3), ("apr".data, 4),
   ("may".data, 5), ("jun".data, 6), ("jul".data, 7), ("aug".data, 8),
   ("sep".data, 9), ("oct".data, 10), ("nov".data, 11), ("dec".data, 12)]

/-- Format `f"{year}-{month_idx:02d}-{int(day):02d}"` with the year group
reprinted verbatim. -/
def fmtDateY (yearDigits : List Char) (mi d : Nat) : List Char :=
  yearDigits ++ '-' :: pad2 mi ++ '-' :: pad2 d

/-- Format with the current year as an integer. -/
def fmtDateN (year mi d : Nat) : List Char :=
  natL year ++ '-' :: pad2 mi ++ '-' :: pad2 d

/-- One iteration of the month loop: the four patterns in source order, a
match being accepted only when `int(day) <= 31 and 1 <= month_idx <= 12`
(a rejected match falls through to the next pattern). -/
def eeDateMonth (curYear : Nat) (mo : List Char) (mi : Nat) (tl : List Char) :
    Option (List Char) :=
  let ok := fun (d : Nat) => d ≤ 31 && 1 ≤ mi && mi ≤ 12
  (match scanPos (dp1At mo) tl with
   | some (d, y) => if ok d then some (fmtDateY y mi d) else none
   | none => none)
  <|> (match scanPos (dp2At mo) tl with
       | some (d, y) => if ok d then some (fmtDateY y mi d) else none
       | none => none)
  <|> (match scanPos (dp3At mo) tl with
       | some d => if ok d then some (fmtDateN curYear mi d) else none
       | none => none)
  <|> (match scanPos (dp4At mo) tl with
       | some d => if ok d then some (fmtDateN curYear mi d) else none
       | none => none)

/-- The month loop of `_extract_date`. -/
def eeDateLoop (curYear : Nat) : List (List Char × Nat) → List Char → Option (List Char)
  | [], _ => none
  | (mo, mi) :: rest, tl =>
      match eeDateMonth curYear mo mi tl with
      | some r => some r
      | none => eeDateLoop curYear rest tl

/-- `EntityExtractor._extract_date`, with the wall-clock year passed in for
`datetime.now().year`. -/
def ee_extract_date (curYear : Nat) (text : String) : Option String :=
  (eeDateLoop curYear monthsWithIdx (lowerL text.data)).map String.mk

/-! ### `EntityExtractor.extract_entities` (lines 8-163) -/

structure Entities where
  person : Option String
  date : Option String
  time : Option String
deriving Repr, DecidableEq

/-- The token-scan fallback (lines 141-150): first whitespace token that is
not excluded, does not start with a digit and does not end in an ordinal
suffix. -/
def scanWordsForName : List (List Char) → Option (List Char)
  | [] => none
  | w :: rest =>
      let wl := lowerL w
      if notExcludedWord wl
         && !(match w with | c :: _ => c.isDigit | [] => false)
         && !(("th".data).isSuffixOf wl)
         && !(("rd".data).isSuffixOf wl)
         && !(("st".data).isSuffixOf wl) then
        some (pyCapitalize w)
      else scanWordsForName rest

/-- The non-shortcut path of `extract_entities`: the of/with/for/see
patterns in source order, then the token scan, plus date and time
extraction. -/
def eeExtractRest (curYear : Nat) (text : String) (words : List (List Char)) : Entities :=
  let tl := lowerL text.data
  let p0 := personFromMatch (searchNameKw ["of".data, "for".data] tl)
  let p1 := match p0 with
    | some p => some p
    | none => personFromMatch (searchNameKw ["with".data] tl)
  let p2 := match p1 with
    | some p => some p
    | none => personFromMatch (searchNameKw ["for".data] tl)
  let p3 := match p2 with
    | some p => some p
    | none => personFromMatch (searchNameKw ["see".data] tl)
  let p4 := match p3 with
    | some p => some p
    | none => scanWordsForName words
  { person := p4.map String.mk,
    date := ee_extract_date curYear text,
    time := ee_extract_time text }

/-- `EntityExtractor.extract_entities`: single-token shortcut, then the
pattern cascade. -/
def ee_extract_entities (curYear : Nat) (text : String) : Entities :=
  let words := pySplit text.data
  match words with
  | [w] =>
      if notExcludedWord (lowerL w) then
        { person := some (String.mk (pyCapitalize w)),
          date := ee_extract_date curYear text,
          time := ee_extract_time text }
      else
        eeExtractRest curYear text words
  | _ => eeExtractRest curYear text words

/-! ### `parse_relative_date` (main.py lines 128-269)

The `dateutil.parser.parse(..., fuzzy=True)` call in the
"N units from date" branch is a library boundary and is passed in as
the parameter `fuzzy`. -/

/-- Python truthiness of an optional string slot: present and non-empty. -/
def isTruthyS (o : Option String) : Bool :=
  match o with
  | some s => !s.isEmpty
  | none => false

/-- Unit alternation `(day|days|week|weeks|month|months)`. -/
inductive TUnit where
  | day
  | week
  | month
deriving Repr, DecidableEq

/-- The unit alternation names in source order with their unit. -/
def unitAlts : List (String × TUnit) :=
  [("day", .day), ("days", .day), ("week", .week), ("weeks", .week),
   ("month", .month), ("months", .month)]

/-- Parse the unit alternation with a continuation, trying alternatives in
order with backtracking, as `re` does (needed because `day` is a prefix of
`days`). -/
def parseUnitCont {α : Type} (cont : TUnit → List Char → Option α) (cs : List Char) :
    Option α :=
  unitAlts.firstM (fun au =>
    if (au.1.data).isPrefixOf cs then cont au.2 (cs.drop au.1.data.length) else none)

/-- Anchored `KW\s+(\d+)\s+(unit)` for `KW` = `in` or `after`. -/
def inAfterAt (kw : List Char) (cs : List Char) : Option (Nat × TUnit) :=
  if kw.isPrefixOf cs then
    match ws1L (cs.drop kw.length) with
    | some r =>
        (match grabDPlus r with
         | some (n, r2) =>
             (match ws1L r2 with
              | some r3 => parseUnitCont (fun u _ => some (n, u)) r3
              | none => none)
         | none => none)
    | none => none
  else none

/-- Anchored `(\d+)\s+(unit)\s+from\s+now`. -/
def fromNowAt (cs : List Char) : Option (Nat × TUnit) :=
  match grabDPlus cs with
  | some (n, r) =>
      (match ws1L r with
       | some r2 =>
           parseUnitCont (fun u r3 =>
             match ws1L r3 with
             | some r4 =>
                 if ("from".data).isPrefixOf r4 then
                   match ws1L (r4.drop 4) with
                   | some r5 => if ("now".data).isPrefixOf r5 then some (n, u) else none
                   | none => none
                 else none
             | none => none) r2
       | none => none)
  | none => none

/-- Anchored `(\d+)\s+(unit)\s+from\s+(.+)`; the third group is the rest of
the line (greedy `.+`, at least one character). -/
def fromDateAt (cs : List Char) : Option (Nat × TUnit × List Char) :=
  match grabDPlus cs with
  | some (n, r) =>
      (match ws1L r with
       | some r2 =>
           parseUnitCont (fun u r3 =>
             match ws1L r3 with
             | some r4 =>
                 if ("from".data).isPrefixOf r4 then
                   match ws1L (r4.drop 4) with
                   | some r5 =>
                       let g3 := r5.takeWhile (fun c => c != '\n')
                       if g3.isEmpty then none else some (n, u, g3)
                   | none => none
                 else none
             | none => none) r2
       | none => none)
  | none => none

/-- Apply a parsed amount of units to a base date (`timedelta` days or
weeks, `relativedelta` months). -/
def applyUnit (base : PyDate) (n : Nat) : TUnit → PyDate
  | .day => addDays base n
  | .week => addDays base (n * 7)
  | .month => addMonths base n

/-- Weekday names with `days_of_week` numbers, in source (insertion) order. -/
def weekdaysIdx : List (List Char × Nat) :=
  [("monday".data, 0), ("tuesday".data, 1), ("wednesday".data, 2), ("thursday".data, 3),
   ("friday".data, 4), ("saturday".data, 5), ("sunday".data, 6)]

/-- Python `(day_num - today.weekday()) % 7` (the `%` of nonnegative
divisor is nonnegative, so the `days_ahead < 0` branch of the source is
unreachable and the result is a natural number). -/
def daysAheadOf (dayNum todayWd : Nat) : Nat :=
  (((dayNum : Int) - (todayWd : Int)).emod 7).toNat

/-- The `next/this/bare weekday` loop of `parse_relative_date`
(lines 154-182). -/
def weekdayLoop (today : PyDate) : List (List Char × Nat) → List Char → Option PyDate
  | [], _ => none
  | (day, num) :: rest, t =>
      if searchRA [rlit "next", .ws1, .lit day] t then
        let o := daysAheadOf num today.weekday
        some (addDays today (if o == 0 then 7 else o))
      else if searchRA [rlit "this", .ws1, .lit day] t then
        let o := daysAheadOf num today.weekday
        some (if o == 0 then today else addDays today o)
      else if searchRA [.wb, .lit day, .wb] t then
        let o := daysAheadOf num today.weekday
        some (if o == 0 then today else addDays today o)
      else weekdayLoop today rest t

/-- `parse_relative_date` from main.py, with `datetime.now()` passed in as
`today` and the `dateutil` fuzzy parser as `fuzzy`. -/
def parse_relative_date (fuzzy : String → Option PyDate) (today : PyDate)
    (text : String) : Option PyDate :=
  let t := lowerL text.data
  if containsSeq "tomorrow".data t then some (addDays today 1)
  else if containsSeq "today".data t then some today
  else if containsSeq "yesterday".data t then some (subDays today 1)
  else
    match weekdayLoop today weekdaysIdx t with
    | some d => some d
    | none =>
      match scanPos (inAfterAt "in".data) t with
      | some (n, u) => some (applyUnit today n u)
      | none =>
        match scanPos (inAfterAt "after".data) t with
        | some (n, u) => some (applyUnit today n u)
        | none =>
          match scanPos fromNowAt t with
          | some (n, u) => some (applyUnit today n u)
          | none =>
            match scanPos fromDateAt t with
            | some (n, u, g3) =>
                (match fuzzy (String.mk (pyStrip g3)) with
                 | some base => some (applyUnit base n u)
                 | none => none)
            | none =>
              if containsSeq "end of month".data t then
                some (mkDate today.year today.month (daysInMonth today.year today.month))
              else if containsSeq "beginning of month".data t
                  || containsSeq "start of month".data t then
                some (mkDate today.year today.month 1)
              else if containsSeq "end of next month".data t then
                let m := today.month + 1
                let y := if m > 12 then today.year + 1 else today.year
                let m := if m > 12 then 1 else m
                some (mkDate y m (daysInMonth y m))
              else if containsSeq "beginning of next month".data t
                  || containsSeq "start of next month".data t then
                let m := today.month + 1
                let y := if m > 12 then today.year + 1 else today.year
                let m := if m > 12 then 1 else m
                some (mkDate y m 1)
              else none

/-- `format_date_for_display`: `strftime("%A, %B %d, %Y")`. -/
def format_date_for_display (d : PyDate) : List Char :=
  weekdayName d.weekday ++ ", ".data ++ monthName d.month ++ " ".data
    ++ pad2 d.day ++ ", ".data ++ natL d.year

/-! ### `enhance_entity_extraction` (main.py lines 279-347) -/

/-- Month alternation of the enhance patterns, full names. -/
def monthAltFull : List (List Char × Nat) :=
  [("january".data, 1), ("february".data, 2), ("march".data, 3), ("april".data, 4),
   ("may".data, 5), ("june".data, 6), ("july".data, 7), ("august".data, 8),
   ("september".data, 9), ("october".data, 10), ("november".data, 11), ("december".data, 12)]

/-- Month alternation of the enhance patterns, short names. -/
def monthAltAbbr : List (List Char × Nat) :=
  [("jan".data, 1), ("feb".data, 2), ("mar".data, 3), ("apr".data, 4),
   ("may".data, 5), ("jun".data, 6), ("jul".data, 7), ("aug".data, 8),
   ("sep".data, 9), ("oct".data, 10), ("nov".data, 11), ("dec".data, 12)]

/-- Anchored `(\d{1,2})(?:st|nd|rd|th)?\s+(?:of\s+)?(month-alt)`; no two
alternatives are prefixes of one another, so the alternation is
deterministic. -/
def epDayMonthAt (alt : List (List Char × Nat)) (cs : List Char) : Option (Nat × Nat) :=
  let tail := fun (d : Nat) (r : List Char) =>
    match ws1L (dropOrd r) with
    | some r2 =>
        ofOpt (fun r3 =>
          (alt.firstM (fun mn =>
            if mn.1.isPrefixOf r3 then some (d, mn.2) else none))) r2
    | none => none
  (match grabD2 cs with
   | some (d, r) => tail d r
   | none => none)
  <|> (match grabD1 cs with
       | some (d, r) => tail d r
       | none => none)

/-- Anchored `(month-alt)\s+(\d{1,2})(?:st|nd|rd|th)?`. -/
def epMonthDayAt (alt : List (List Char × Nat)) (cs : List Char) : Option (Nat × Nat) :=
  alt.firstM (fun mn =>
    if mn.1.isPrefixOf cs then
      match ws1L (cs.drop mn.1.length) with
      | some r =>
          (match grabD2 r with
           | some (d, _) => some (d, mn.2)
           | none => none)
          <|> (match grabD1 r with
               | some (d, _) => some (d, mn.2)
               | none => none)
      | none => none
    else none)

/-- Year match `20\d{2}` with word boundaries at the current position. -/
def year20At (prev : Option Char) (cs : List Char) : Option (List Char) :=
  match cs with
  | '2' :: '0' :: a :: b :: rest =>
      if atBoundary prev cs && a.isDigit && b.isDigit && atBoundary (some b) rest then
        some ['2', '0', a, b]
      else none
  | _ => none

/-- Leftmost scan with word-boundary for `\b(20\d{2})\b` on the raw text,
returning the year digits. -/
def scanYear20 : Option Char → List Char → Option (List Char)
  | prev, [] => year20At prev []
  | prev, c :: t =>
      match year20At prev (c :: t) with
      | some y => some y
      | none => scanYear20 (some c) t

/-- The four fallback date patterns of `enhance_entity_extraction`, tried in
source order, a match being accepted only when `1 <= day <= 31`. -/
def enhanceDatePatterns (curYear : Nat) (tl : List Char) : Option (List Char) :=
  let accept := fun (p : Nat × Nat) =>
    if 1 ≤ p.1 && p.1 ≤ 31 then some (fmtDateN curYear p.2 p.1) else none
  (match scanPos (epDayMonthAt monthAltFull) tl with
   | some p => accept p
   | none => none)
  <|> (match scanPos (epMonthDayAt monthAltFull) tl with
       | some p => accept p
       | none => none)
  <|> (match scanPos (epDayMonthAt monthAltAbbr) tl with
       | some p => accept p
       | none => none)
  <|> (match scanPos (epMonthDayAt monthAltAbbr) tl with
       | some p => accept p
       | none => none)

/-- `enhance_entity_extraction`: basic extraction, then the relative-date
resolver, then the fallback date patterns, then the bare-year fallback. -/
def enhance_entity_extraction (fuzzy : String → Option PyDate) (today : PyDate)
    (text : String) : Entities :=
  let e := ee_extract_entities today.year text
  if isTruthyS e.date then e
  else
    match parse_relative_date fuzzy today text with
    | some rd => { e with date := some (String.mk (format_date_for_display rd)) }
    | none =>
      match enhanceDatePatterns today.year (lowerL text.data) with
      | some ds => { e with date := some (String.mk ds) }
      | none =>
        match scanYear20 none text.data with
        | some y => { e with date := some (String.mk (y ++ "-01-01".data)) }
        | none => e

/-! ### The `extract_entities` wrapper (main.py lines 350-413) -/

/-- List `common_responses`. -/
def commonResponses : List String :=
  ["yes", "no", "okay", "sure", "correct", "right", "thanks", "thank", "please"]

/-- List `common_words` of the wrapper. -/
def commonWordsMain : List String :=
  ["feeling", "anytime", "anything", "something", "nothing", "anyone", "someone",
   "nobody", "everybody", "everyone", "whenever", "whatever", "however", "anywhere",
   "going", "looking", "thinking", "trying", "hoping", "planning", "wanting", "needing",
   "one", "two", "three", "four", "five", "six", "seven", "eight", "nine", "ten",
   "first", "second", "third", "fourth", "fifth", "last", "next", "this", "that",
   "these", "those", "there", "here", "today", "tomorrow", "yesterday",
   "monday", "tuesday", "wednesday", "thursday", "friday", "saturday", "sunday"]

/-- Scheduling keywords rejected as person names. -/
def schedulingKeywords : List String :=
  ["another", "new", "schedule", "appointment", "what", "ai"]

/-- Anchored full match of `^\d{1,2}:\d{2}$`. -/
def timePat1 (cs : List Char) : Bool :=
  let tail := fun (r : List Char) =>
    match r with
    | ':' :: a :: b :: rest => a.isDigit && b.isDigit && rest.isEmpty
    | _ => false
  (match grabD2 cs with
   | some (_, r) => tail r
   | none => false)
  || (match grabD1 cs with
      | some (_, r) => tail r
      | none => false)

/-- Anchored full match of `^\d{1,2}(am|pm|a\.m\.|p\.m\.)$`. -/
def timePat2 (cs : List Char) : Bool :=
  let tail := fun (r : List Char) =>
    match parsePeriodL r with
    | some mk => (r.drop mk.length).isEmpty
    | none => false
  (match grabD2 cs with
   | some (_, r) => tail r
   | none => false)
  || (match grabD1 cs with
      | some (_, r) => tail r
      | none => false)

/-- Anchored full match of `^\d{1,2}\s*(am|pm|a\.m\.|p\.m\.)$`. -/
def timePat3 (cs : List Char) : Bool :=
  let tail := fun (r : List Char) =>
    let r2 := r.dropWhile isSpaceC
    match parsePeriodL r2 with
    | some mk => (r2.drop mk.length).isEmpty
    | none => false
  (match grabD2 cs with
   | some (_, r) => tail r
   | none => false)
  || (match grabD1 cs with
      | some (_, r) => tail r
      | none => false)

/-- Any of the three wrapper time patterns. -/
def anyTimePattern (cs : List Char) : Bool :=
  timePat1 cs || timePat2 cs || timePat3 cs

/-- The `extract_entities` wrapper of main.py: enhanced extraction followed
by the person-name rejection filters, applied in source order. -/
def extract_entities_main (fuzzy : String → Option PyDate) (today : PyDate)
    (text : String) : Entities :=
  let r := enhance_entity_extraction fuzzy today text
  match r.person with
  | none => r
  | some p =>
      let pl := lowerL p.data
      if (pySplit text.data).length > 2 && (p.data).isPrefixOf (pyStrip text.data)
         && (pySplit p.data).length == 1 then
        { r with person := none }
      else if memW pl commonResponses then { r with person := none }
      else if memW pl commonWordsMain then { r with person := none }
      else if anyTimePattern pl then { r with person := none }
      else if memW pl schedulingKeywords then { r with person := none }
      else r

/-! ### `extract_entities_with_ai` (main.py lines 582-695)

The `agent.run` call and the JSON decoding of its textual answer are the
boundary; the boundary outcome is passed in as `aiRaw` (`none` models an
exception, a timeout or a response that neither the JSON parser nor the
regex fallback could decode; `some entries` models a decoded slot
mapping).  The in-scope validation loop (lines 661-691) is modelled
exactly. -/

/-- Literal strings treated as null (compared lowercased). -/
def nullStrings : List String := ["null", "unknown", ""]

/-- Flexible time phrases normalized to the sentinel. -/
def flexPhrases : List (List Char) :=
  ["anytime".data, "any time".data, "whenever".data, "available".data,
   "asap".data, "as soon as".data, "earliest".data]

/-- Pattern `\b(january|...|december)\b` for the time contamination guard. -/
def monthWordRA : List RAtom :=
  [.wb,
   .alts ["january".data, "february".data, "march".data, "april".data, "may".data,
          "june".data, "july".data, "august".data, "september".data, "october".data,
          "november".data, "december".data],
   .wb]

/-- Full match of `^\d{1,2}(:\d{2})?\s*(am|pm|a\.m\.|p\.m\.)?$` (the
"date value looks like a time" guard). -/
def looksLikeTimeOnly (s : String) : Bool :=
  let cs := lowerL s.data
  let tail := fun (r : List Char) =>
    let r1 := match r with
      | ':' :: a :: b :: t => if a.isDigit && b.isDigit then t else r
      | _ => r
    let r2 := r1.dropWhile isSpaceC
    (match parsePeriodL r2 with
     | some mk => (r2.drop mk.length).isEmpty
     | none => false)
    || r2.isEmpty
  (match grabD2 cs with
   | some (_, r) => tail r
   | none => false)
  || (match grabD1 cs with
      | some (_, r) => tail r
      | none => false)

/-- The per-slot validation of the AI answer (the body of the
`for key in result` loop): null-string conversion, then the date guard,
then the time guards and the flexible-time normalization. -/
def processEntry (k : String) (v : Option String) : Option String :=
  let v1 := match v with
    | some s => if memW (lowerL s.data) nullStrings then none else some s
    | none => none
  let v2 :=
    if k == "date" then
      match v1 with
      | some s => if looksLikeTimeOnly s then none else some s
      | none => none
    else v1
  if k == "time" then
    match v2 with
    | some s =>
        if searchRA monthWordRA (lowerL s.data) || hasIsoDate s.data then none
        else if !s.isEmpty && containsAny flexPhrases (lowerL s.data) then
          some "first available"
        else some s
    | none => none
  else v2

/-- `extract_entities_with_ai` given the boundary outcome: on failure every
requested slot maps to null; on success the validation loop runs over the
decoded entries and missing slots not present are filled with null. -/
def extract_entities_with_ai (missing : List String)
    (aiRaw : Option (List (String × Option String))) : List (String × Option String) :=
  match aiRaw with
  | none => missing.map (fun e => (e, none))
  | some entries =>
      let processed := entries.map (fun kv => (kv.1, processEntry kv.1 kv.2))
      processed ++
        (missing.filter (fun e => !(entries.any (fun kv => kv.1 == e)))).map
          (fun e => (e, none))

/-! ### Conversation context and dialogue state machine
(main.py `process_appointment_intent`, lines 697-1053)

The context dictionary is modelled as a structure of optional strings
(`none` = key absent or `None`; `some ""` = present but falsy), plus the
`ready_for_new_topic` boolean.  Response strings are abstracted into one
tag per response site of the source; no claim inspects response text.
Wall-clock `datetime.now().isoformat()` is passed in as `now`. -/

structure Ctx where
  intent : Option String := none
  phase : Option String := none
  person : Option String := none
  date : Option String := none
  time : Option String := none
  previous_person : Option String := none
  appointment_completed_at : Option String := none
  ready_for_new_topic : Bool := false
deriving Repr, DecidableEq

/-- The empty conversation context `{}`. -/
def emptyCtx : Ctx := {}

/-- Persistence-layer calls.  The database collaborator offers
`add_appointment` and `cancel_appointment`, but both call sites inside
`process_appointment_intent` are commented out in the source
(main.py lines 804, 940 and 997), so the model never emits a call. -/
inductive DbCall where
  | addAppointment (person date time : String)
  | cancelAppointment (person date time : String)
deriving Repr, DecidableEq

/-- Response tags, one per response site of `process_appointment_intent`
(sites with identical response text share a tag). -/
inductive RespTag where
  | cancelCurrentConfirm
  | askPersonCheck
  | askDateCheck
  | showAvail
  | askPersonCancel
  | askDateCancel
  | askTimeCancel
  | cancelledDone
  | confirmCancel
  | askPerson
  | askDate
  | askTime
  | confirmSchedule
  | listAppointments
  | needPersonCheck
  | needDateCheck
  | timeNotUnderstood
  | needPersonCancel
  | needDateCancel
  | needPersonSchedule
  | needDateSchedule
  | scheduledDone
  | missingInfoRestart
  | askChangeWhat
  | askChangeCancelWhat
  | changePerson
  | changeDate
  | changeTime
  | startOver
  | genericUnsure
deriving Repr, DecidableEq

structure PAIResult where
  resp : RespTag
  ctx : Ctx
  dbCalls : List DbCall
deriving Repr, DecidableEq

/-- The `anytime_patterns` of the flexible-time check (lines 708-720). -/
def anytimePatternsRA : List (List RAtom) :=
  [[rlit "any", .ws0, rlit "time"],
   [rlit "when", .wordStar, .ws1, rlit "available"],
   [rlit "earliest", .ws1, rlit "available"],
   [rlit "first", .ws1, rlit "available"],
   [rlit "whenever"],
   [rlit "any", .ws1, rlit "open", .wordStar, .ws1, rlit "slot"],
   [rlit "any", .ws1, rlit "opening"],
   [rlit "as", .ws1, rlit "soon", .ws1, rlit "as", .ws1, rlit "possible"],
   [rlit "asap"],
   [rlit "fit", .ws1, rlit "me", .ws1, rlit "in"],
   [rlit "earliest", .ws1, rlit "appointment"]]

/-- The `cancel_current_patterns` substrings (lines 730-737). -/
def cancelCurrentPatterns : List (List Char) :=
  ["cancel this appointment".data,
   "cancel the current appointment".data,
   "cancel that appointment".data,
   "cancel it".data,
   "don".data ++ [apos] ++ "t want this appointment".data,
   "remove this appointment".data]

/-- The affirmative word set used at `confirming_cancel` (lines 787 and
925; the two source occurrences list the same ten words in different
orders, which is irrelevant under `any`). -/
def affirmativeWords : List (List Char) :=
  ["yes".data, "correct".data, "right".data, "ok".data, "okay".data,
   "sure".data, "yeah".data, "yep".data, "do that".data, "please".data]

/-- Set the completion markers (lines 807-809, 943-945 and 1049-1050). -/
def setCompletedMarkers (ctx : Ctx) (now : String) : Ctx :=
  { ctx with appointment_completed_at := some now, ready_for_new_topic := true }

/-- The `person.lower() == "that"` repair applied when finalizing a
cancellation (lines 790-797 and 928-933): use `previous_person` when it is
truthy. -/
def fixThatPerson (ctx : Ctx) : Option String :=
  match ctx.person with
  | some p =>
      if !p.isEmpty && lowerL p.data == "that".data then
        match ctx.previous_person with
        | some q => if !q.isEmpty then some q else some p
        | none => some p
      else some p
  | none => none

/-- The `init` branch and the phase chain of `process_appointment_intent`
(lines 827-1037); `none` means no branch produced a response, in which
case the caller falls back to the generic reply. -/
def paiChain (intent : String) (phase : String) (ml : List Char) (ctx : Ctx) (now : String) :
    Option (RespTag × Ctx) :=
  if phase.isEmpty || phase == "init" then
    if intent == "schedule_appointment" then
      if !isTruthyS ctx.person then some (.askPerson, { ctx with phase := some "asking_person" })
      else if !isTruthyS ctx.date then some (.askDate, { ctx with phase := some "asking_date" })
      else if !isTruthyS ctx.time then some (.askTime, { ctx with phase := some "asking_time" })
      else some (.confirmSchedule, { ctx with phase := some "confirming" })
    else if intent == "list_appointments" then
      some (.listAppointments, { ctx with phase := some "listing_appointments" })
    else none
  else if phase == "asking_person_check" then
    if isTruthyS ctx.person then some (.askDateCheck, { ctx with phase := some "asking_date_check" })
    else some (.needPersonCheck, ctx)
  else if phase == "asking_date_check" then
    if isTruthyS ctx.date then some (.showAvail, { ctx with phase := some "showing_availability" })
    else some (.needDateCheck, ctx)
  else if phase == "showing_availability" && containsSeq "time".data ml then
    match searchLoose ml with
    | some (h, m, per) =>
        let mk := per.getD []
        let h2 := if mk.headD ' ' == 'p' && h < 12 then h + 12
                  else if mk.headD ' ' == 'a' && h == 12 then 0
                  else h
        some (.confirmSchedule,
          { ctx with time := some (String.mk (fmtHM h2 m)),
                     intent := some "schedule_appointment", phase := some "confirming" })
    | none => some (.timeNotUnderstood, ctx)
  else if phase == "asking_person_cancel" then
    if isTruthyS ctx.person then some (.askDateCancel, { ctx with phase := some "asking_date_cancel" })
    else some (.needPersonCancel, ctx)
  else if phase == "asking_date_cancel" then
    if isTruthyS ctx.date then some (.askTimeCancel, { ctx with phase := some "asking_time_cancel" })
    else some (.needDateCancel, ctx)
  else if phase == "asking_time_cancel" then
    if isTruthyS ctx.time then
      some (.confirmCancel,
        { ctx with phase := some "confirming_cancel", previous_person := ctx.person })
    else some (.askTimeCancel, ctx)
  else if phase == "confirming_cancel" then
    if containsAny affirmativeWords ml then
      -- the `db.cancel_appointment` call here is commented out in the source (line 940)
      some (.cancelledDone,
        setCompletedMarkers { ctx with phase := some "completed", person := fixThatPerson ctx } now)
    else some (.askChangeCancelWhat, { ctx with phase := some "asking_change_cancel" })
  else if phase == "asking_person" then
    if isTruthyS ctx.person then some (.askDate, { ctx with phase := some "asking_date" })
    else some (.needPersonSchedule, ctx)
  else if phase == "asking_date" then
    if isTruthyS ctx.date then some (.askTime, { ctx with phase := some "asking_time" })
    else some (.needDateSchedule, ctx)
  else if phase == "asking_time" then
    if isTruthyS ctx.time then some (.confirmSchedule, { ctx with phase := some "confirming" })
    else some (.askTime, ctx)
  else if phase == "confirming" then
    if containsSeq "yes".data ml || containsSeq "correct".data ml || containsSeq "right".data ml then
      if isTruthyS ctx.person && isTruthyS ctx.date && isTruthyS ctx.time then
        -- the `db.add_appointment` call here is commented out in the source (line 997)
        some (.scheduledDone, { ctx with phase := some "completed" })
      else some (.missingInfoRestart, { ctx with phase := some "init" })
    else some (.askChangeWhat, { ctx with phase := some "asking_change" })
  else if phase == "asking_change" || phase == "asking_change_cancel" then
    if containsSeq "person".data ml || containsSeq "who".data ml || containsSeq "name".data ml then
      some (.changePerson,
        { ctx with phase := some (if intent == "cancel_appointment" then "asking_person_cancel"
                                  else "asking_person"),
                   person := none })
    else if containsSeq "date".data ml || containsSeq "day".data ml
         || containsSeq "when".data ml then
      some (.changeDate,
        { ctx with phase := some (if intent == "cancel_appointment" then "asking_date_cancel"
                                  else "asking_date"),
                   date := none })
    else if containsSeq "time".data ml || containsSeq "hour".data ml then
      some (.changeTime,
        { ctx with phase := some (if intent == "cancel_appointment" then "asking_time_cancel"
                                  else "asking_time"),
                   time := none })
    else some (.startOver, { ctx with phase := some "init" })
  else none

/-- The body of `process_appointment_intent` after the flexible-time
patch (which only writes `context["time"]`, so intent and phase may be
read after it).  The `check_availability` and `cancel_appointment`
intents return early as in the source; all other paths fall through to
the completion-marker check of lines 1044-1050. -/
def paiBody (msg : String) (ctx : Ctx) (now : String) : PAIResult :=
  let intent := ctx.intent.getD "schedule_appointment"
  let phase := ctx.phase.getD "init"
  let ml := lowerL msg.data
  if containsAny cancelCurrentPatterns ml && isTruthyS ctx.person && isTruthyS ctx.date then
    ⟨.cancelCurrentConfirm,
     { ctx with intent := some "cancel_appointment", phase := some "confirming_cancel" }, []⟩
  else if intent == "check_availability" then
    if !isTruthyS ctx.person then
      ⟨.askPersonCheck, { ctx with phase := some "asking_person_check" }, []⟩
    else if !isTruthyS ctx.date then
      ⟨.askDateCheck, { ctx with phase := some "asking_date_check" }, []⟩
    else ⟨.showAvail, { ctx with phase := some "showing_availability" }, []⟩
  else if intent == "cancel_appointment" then
    if !isTruthyS ctx.person then
      ⟨.askPersonCancel, { ctx with phase := some "asking_person_cancel" }, []⟩
    else if !isTruthyS ctx.date then
      ⟨.askDateCancel, { ctx with phase := some "asking_date_cancel" }, []⟩
    else if !isTruthyS ctx.time then
      ⟨.askTimeCancel, { ctx with phase := some "asking_time_cancel" }, []⟩
    else if phase == "confirming_cancel" && containsAny affirmativeWords ml then
      -- the `db.cancel_appointment` call here is commented out in the source (line 804)
      ⟨.cancelledDone,
       setCompletedMarkers { ctx with phase := some "completed", person := fixThatPerson ctx } now,
       []⟩
    else
      let pp :=
        match ctx.person with
        | some p =>
            if !p.isEmpty && lowerL p.data != "that".data then some p else ctx.previous_person
        | none => ctx.previous_person
      ⟨.confirmCancel, { ctx with phase := some "confirming_cancel", previous_person := pp }, []⟩
  else
    let step := paiChain intent phase ml ctx now
    let tagCtx :=
      match step with
      | some r => r
      | none => (.genericUnsure, ctx)
    let ctx2 := tagCtx.2
    let ctx3 := if phase == "completed" || ctx2.phase == some "completed" then
                  setCompletedMarkers ctx2 now
                else ctx2
    ⟨tagCtx.1, ctx3, []⟩

/-- `process_appointment_intent`: the flexible-time patch of lines
708-726 followed by the intent/phase chain. -/
def process_appointment_intent (msg : String) (ctx0 : Ctx) (now : String) : PAIResult :=
  let phase := ctx0.phase.getD "init"
  let ml := lowerL msg.data
  let ctx :=
    if phase == "asking_time" && ctx0.time.isNone
       && anytimePatternsRA.any (fun p => searchRA p ml) then
      { ctx0 with time := some "first available" }
    else ctx0
  paiBody msg ctx now

/-! ### `handle_appointment_query` (main.py lines 1055-1224)

Session memory writes are boundary side effects without influence on the
returned context and are omitted.  The LLM boundary of the AI fallback is
the parameter `aiRaw` as in `extract_entities_with_ai`. -/

/-- The four appointment intents. -/
def appointmentIntents : List String :=
  ["schedule_appointment", "cancel_appointment", "check_availability", "list_appointments"]

/-- The person-asking phases of the override guard
(lines 1156-1160 and 1188-1193). -/
def personAskingPhases : List String :=
  ["init", "asking_person", "asking_person_cancel", "asking_person_check"]

/-- The guard condition `original_phase not in [...]` (a missing phase is
not in the list either). -/
def phaseOutsidePersonAsking (origPh : Option String) : Bool :=
  match origPh with
  | some p => !(personAskingPhases.contains p)
  | none => true

/-- Intent bookkeeping at the start of `handle_appointment_query`
(lines 1065-1091). -/
def hq_update_intent (msg : String) (ctx : Ctx) : Ctx :=
  match ctx.intent with
  | none =>
      let it := identify_intent msg
      if appointmentIntents.contains it then { ctx with intent := some it }
      else { ctx with intent := some "schedule_appointment" }
  | some cur =>
      let it := identify_intent msg
      if appointmentIntents.contains it && it != cur then
        { ctx with intent := some it, phase := none }
      else ctx

/-- Missing-slot computation (lines 1100-1120). -/
def computeMissing (e : Entities) (ctx : Ctx) : List String :=
  let it := ctx.intent.getD ""
  if it == "schedule_appointment" then
    (if !isTruthyS e.person && !isTruthyS ctx.person then ["person"] else []) ++
    (if !isTruthyS e.date && !isTruthyS ctx.date then ["date"] else []) ++
    (if !isTruthyS e.time && !isTruthyS ctx.time then ["time"] else [])
  else if it == "cancel_appointment" then
    (if !isTruthyS e.person && !isTruthyS ctx.person then ["person"] else []) ++
    (if (!isTruthyS e.date && !isTruthyS ctx.date)
        && (!isTruthyS e.time && !isTruthyS ctx.time) then ["date", "time"] else [])
  else if it == "check_availability" then
    (if !isTruthyS e.person && !isTruthyS ctx.person then ["person"] else [])
  else []

/-- Name interpretation at the person-asking phases (lines 1126-1143). -/
def hq_interpret (msg : String) (e : Entities) (missing : List String) (ctx : Ctx) :
    Entities × List String :=
  let inAsking :=
    match ctx.phase with
    | some ph => ["asking_person", "asking_person_cancel", "asking_person_check"].contains ph
    | none => false
  if !missing.isEmpty && inAsking && (pySplit msg.data).length ≤ 3 then
    let pot := pyStrip msg.data
    if !pot.isEmpty && pot.length > 1 && !memW (lowerL pot) domainSpecificWords then
      ({ e with person := some (String.mk (pyCapitalize pot)) },
       missing.filter (fun x => x != "person"))
    else (e, missing)
  else (e, missing)

/-- The deterministic merge of the extracted person slot with its guards
(lines 1147-1163, `person` iteration). -/
def hq_merge_person (origP origPh : Option String) (v : Option String) (ctx : Ctx) : Ctx :=
  match v with
  | some s =>
      if s.isEmpty then ctx
      else if memW (lowerL s.data) ["availability", "availibility", "appointment"] then ctx
      else if origP.isSome && phaseOutsidePersonAsking origPh then ctx
      else { ctx with person := some s }
  | none => ctx

/-- One step of the AI-merge loop `for key in missing_entities`
(lines 1178-1196). -/
def hq_ai_step (origP origPh : Option String) (ai : List (String × Option String))
    (ctx : Ctx) (key : String) : Ctx :=
  match ai.lookup key with
  | some (some s) =>
      if s.isEmpty then ctx
      else if key == "person" && (hasIsoDate s.data || hasHmTime s.data) then ctx
      else if key == "person" && origP.isSome && phaseOutsidePersonAsking origPh then ctx
      else if key == "person" then { ctx with person := some s }
      else if key == "date" then { ctx with date := some s }
      else if key == "time" then { ctx with time := some s }
      else ctx
  | _ => ctx

/-- The slot-merging stage of `handle_appointment_query` (lines 1126-1205):
name interpretation, deterministic merge over the `person`, `date`, `time`
entries in dictionary order, then the AI fallback merge when slots are
missing. -/
def hq_merge_stage (origP origPh : Option String) (msg : String) (e : Entities)
    (missing : List String) (aiRaw : Option (List (String × Option String)))
    (ctx : Ctx) : Ctx :=
  let em := hq_interpret msg e missing ctx
  let ctx2 := hq_merge_person origP origPh em.1.person ctx
  let ctx3 := if isTruthyS em.1.date then { ctx2 with date := em.1.date } else ctx2
  let ctx4 := if isTruthyS em.1.time then { ctx3 with time := em.1.time } else ctx3
  if em.2.isEmpty then ctx4
  else
    let ai := extract_entities_with_ai em.2 aiRaw
    em.2.foldl (hq_ai_step origP origPh ai) ctx4

/-- `handle_appointment_query`: intent bookkeeping, entity extraction, slot
merging and the state-machine step. -/
def handle_appointment_query (fuzzy : String → Option PyDate) (today : PyDate)
    (msg : String) (ctx0 : Ctx) (aiRaw : Option (List (String × Option String)))
    (now : String) : PAIResult :=
  let origP := ctx0.person
  let origPh := ctx0.phase
  let ctx1 := hq_update_intent msg ctx0
  let e := extract_entities_main fuzzy today msg
  let missing := computeMissing e ctx1
  let ctx5 := hq_merge_stage origP origPh msg e missing aiRaw ctx1
  process_appointment_intent msg ctx5 now

/-! ### The head of `process_message` (main.py lines 1334-1452)

Modelled up to and including the completed-phase reset, which is what
claim C8 concerns; the continuation (memory lookups, AI intent detection
and dispatch) is below the reset point and out of scope here. -/

/-- The `summary_patterns` of `check_if_summary_requested` (lines 566-573). -/
def summaryPatternsRA : List (List RAtom) :=
  [[.alts ["conversation".data, "chat".data], rlit " summary"],
   [rlit "summarize ", .alts ["our".data, "this".data], rlit " ",
    .alts ["conversation".data, "chat".data, "discussion".data]],
   [rlit "give me a summary"],
   [rlit "what have we ", .alts ["talked".data, "discussed".data], rlit " ",
    .optLit "about".data],
   [rlit "recap ", .alts ["our".data, "this".data], rlit " ",
    .alts ["conversation".data, "chat".data]],
   [rlit "sum", .optLit " ".data, rlit "up ", .alts ["our".data, "this".data, "the".data],
    rlit " ", .alts ["conversation".data, "chat".data, "discussion".data]]]

/-- `check_if_summary_requested`. -/
def check_if_summary_requested (msg : String) : Bool :=
  summaryPatternsRA.any (fun p => searchRA p (lowerL msg.data))

/-- The see-a-doctor substrings (lines 1353-1356). -/
def seeDoctorPatterns : List (List Char) :=
  ["see a doctor".data, "see the doctor".data, "need a doctor".data,
   "need to see a doctor".data]

/-- The backup knowledge indicators (lines 1405-1409). -/
def knowledgeIndicators : List (List Char) :=
  ["what is".data, "what are".data, "who is".data, "who are".data, "how does".data,
   "how do".data, "explain".data, "tell me about".data, "when was".data, "when is".data,
   "where is".data, "where are".data, "why is".data, "why are".data, "define".data,
   "definition".data, "defination".data, "meaning of".data, "can you explain".data,
   "what does".data, "tell me more".data]

/-- The `new_appointment_keywords` (lines 1423-1426). -/
def newApptKeywords : List (List Char) :=
  ["new appointment".data, "another appointment".data, "different appointment".data,
   "schedule another".data, "book another".data, "make another".data]

/-- Outcome of the head of `process_message`: which path the turn took and
the context state it carries at that point. -/
inductive MsgOutcome where
  | emptyMsg
  | summaryReturn (ctx : Ctx)
  | knowledgeReturn (ctx : Ctx)
  | newApptQuery (ctx : Ctx)
  | mainFlow (ctx : Ctx)
deriving Repr, DecidableEq

/-- Context carried by an outcome, when one exists. -/
def MsgOutcome.ctxOf : MsgOutcome → Option Ctx
  | .emptyMsg => none
  | .summaryReturn c => some c
  | .knowledgeReturn c => some c
  | .newApptQuery c => some c
  | .mainFlow c => some c

/-- The head of `process_message`: empty-message return, summary return,
see-a-doctor special case, the availability/cancel intent switches, the
knowledge bypass, the new-appointment reset, and finally the
completed-phase context reset of lines 1447-1452. -/
def process_message_head (fuzzy : String → Option PyDate) (today : PyDate)
    (msg : String) (ctx0 : Ctx) : MsgOutcome :=
  if msg.isEmpty then .emptyMsg
  else if check_if_summary_requested msg then .summaryReturn ctx0
  else
    let ml := lowerL msg.data
    let ctx1 :=
      if containsAny seeDoctorPatterns ml then
        { ctx0 with intent := some "schedule_appointment", person := some "Doctor" }
      else ctx0
    let ctx2 :=
      if containsSeq "check availability".data ml
         || containsSeq "check availibility".data ml
         || containsSeq "availability".data ml then
        { emptyCtx with intent := some "check_availability", phase := some "init",
                        person := (if isTruthyS ctx1.person then ctx1.person else none),
                        date := (if isTruthyS ctx1.date then ctx1.date else none) }
      else if containsSeq "cancel".data ml && containsSeq "appointment".data ml then
        { emptyCtx with intent := some "cancel_appointment", phase := some "init",
                        person := (if isTruthyS ctx1.person then ctx1.person else none),
                        date := (if isTruthyS ctx1.date then ctx1.date else none) }
      else ctx1
    if identify_intent msg == "knowledge" then .knowledgeReturn emptyCtx
    else if knowledgeIndicators.any (fun k => containsSeq k ml) then .knowledgeReturn emptyCtx
    else if newApptKeywords.any (fun k => containsSeq k ml) then
      let te := extract_entities_main fuzzy today msg
      .newApptQuery { emptyCtx with
                        intent := some "schedule_appointment",
                        person := (if isTruthyS te.person then te.person else none) }
    else if ctx2.phase == some "completed" then .mainFlow emptyCtx
    else .mainFlow ctx2

/-! ### Auxiliary definitions for the claims -/

/-- A `YYYY-MM-DD` triple is a real Gregorian calendar date. -/
def isValidCalendarDate (y m d : Nat) : Bool :=
  1 ≤ m && m ≤ 12 && 1 ≤ d && d ≤ daysInMonth y m

/-- The fuzzy-parser boundary instantiated as total failure; the traces in
the claims never reach the `dateutil` branch, so any instantiation gives
the same results. -/
def noFuzzy : String → Option PyDate := fun _ => none

/-- Wednesday, June 11, 2025 (`zellerWeekday` gives weekday 2). -/
def wedJune11 : PyDate := mkDate 2025 6 11

/-- A completed-phase context carrying a confirmed person, for claim C8. -/
def ctxC8 : Ctx :=
  { emptyCtx with intent := some "schedule_appointment", phase := some "completed",
                  person := some "John", ready_for_new_topic := true,
                  appointment_completed_at := some "2025-06-11T12:00:00" }

/-- A confirming-phase context with every slot filled, for claim C4. -/
def ctxC4 : Ctx :=
  { emptyCtx with intent := some "schedule_appointment", phase := some "confirming",
                  person := some "John", date := some "2025-06-12", time := some "15:00" }

/-! ## Claims -/

/-- Claim C5: intent classification checks the pattern families in the
fixed precedence order knowledge, check_availability, cancel_appointment,
schedule_appointment, list_appointments; the first family with a matching
pattern determines the label for every utterance, and an utterance
matching no pattern of any family is classified unknown.  Stated as a
refinement: the source classifier coincides with the specification-side
ordered-family classifier (whose final case returns `"unknown"`) on every
input. -/
theorem claim_C5 (text : String) :
    identify_intent text = classifyByOrderedFamilies intentFamiliesInOrder (lowerL text.data) := by
  rfl

/-- Claim C9: the deterministic date extractor validates only that the day
is at most 31 and the month index is in range, never that the day exists
in the month or is at least 1: `"february 31"` and `"june 0"` yield
strings that are not valid calendar dates, while a real date is extracted
normally. -/
theorem claim_C9 :
    ee_extract_date 2025 "february 31" = some "2025-02-31" ∧
    isValidCalendarDate 2025 2 31 = false ∧
    ee_extract_date 2025 "june 0" = some "2025-06-00" ∧
    isValidCalendarDate 2025 6 0 = false ∧
    ee_extract_date 2025 "june 15" = some "2025-06-15" ∧
    isValidCalendarDate 2025 6 15 = true := by
  exact ⟨rfl, rfl, rfl, rfl, rfl, rfl⟩

set_option maxRecDepth 4096 in
/-- Claim C1 (divergence record): from `(schedule_appointment, init)` with
no slots, the turns `"John"`, `"tomorrow"`, `"3pm"`, `"yes"` do reach
`(schedule_appointment, completed)` with person `"John"`, date =
tomorrow's date and time `"15:00"`, but the pipeline performs zero
`add_appointment` persistence calls: the `db.add_appointment` call of the
confirming branch is commented out in the source (main.py line 997), so
the claimed single persistence call never happens. -/
theorem claim_C1_divergence :
    let t1 : PAIResult := handle_appointment_query noFuzzy wedJune11 "John"
      { intent := some "schedule_appointment", phase := some "init" } none "T1"
    let t2 := handle_appointment_query noFuzzy wedJune11 "tomorrow" t1.ctx none "T2"
    let t3 := handle_appointment_query noFuzzy wedJune11 "3pm" t2.ctx none "T3"
    let t4 := handle_appointment_query noFuzzy wedJune11 "yes" t3.ctx none "T4"
    t4.ctx.intent = some "schedule_appointment" ∧
    t4.ctx.phase = some "completed" ∧
    t4.ctx.person = some "John" ∧
    t4.ctx.date = some "Thursday, June 12, 2025" ∧
    t4.ctx.time = some "15:00" ∧
    t4.resp = .scheduledDone ∧
    t1.dbCalls ++ t2.dbCalls ++ t3.dbCalls ++ t4.dbCalls = [] := by
  exact ⟨rfl, rfl, rfl, rfl, rfl, rfl, rfl⟩

/-- Claim C3 (divergence record): in `(check_availability,
showing_availability)` with person and date set, the reply
`"2:00 pm works"` does extract time `"14:00"` into the context, but the
intent is not rewritten to `schedule_appointment` and the phase stays
`showing_availability` (the availability listing is re-emitted): the
cross-intent branch of main.py line 874 is unreachable because the
`check_availability` block returns earlier (main.py lines 748-767), and
it would additionally require the literal substring `"time"` in the
message, which a time reply need not contain. -/
theorem claim_C3_divergence :
    let ctx : Ctx := { intent := some "check_availability",
                       phase := some "showing_availability",
                       person := some "Dr. Smith", date := some "2025-06-10" }
    let r := handle_appointment_query noFuzzy wedJune11 "2:00 pm works" ctx none "T"
    let r2 := handle_appointment_query noFuzzy wedJune11 "2:00 pm works at that time" ctx none "T"
    r.ctx.intent = some "check_availability" ∧
    r.ctx.phase = some "showing_availability" ∧
    r.ctx.time = some "14:00" ∧
    r.resp = .showAvail ∧
    r2.ctx.intent = some "check_availability" ∧
    r2.ctx.phase = some "showing_availability" := by
  exact ⟨rfl, rfl, rfl, rfl, rfl, rfl⟩

/-- One AI-merge step never changes the person slot when the override
guard is active (non-null original person, phase outside the
person-asking phases). -/
theorem hq_ai_step_keeps_person (origPh : Option String)
    (hph : phaseOutsidePersonAsking origPh = true)
    (ai : List (String × Option String)) (p : String) (ctx : Ctx) (k : String)
    (h : ctx.person = some p) : (hq_ai_step (some p) origPh ai ctx k).person = some p := by
  unfold hq_ai_step
  cases hl : ai.lookup k with
  | none => simpa using h
  | some v =>
    cases v with
    | none => simpa using h
    | some s =>
        split_ifs with h1 h2 h3 h4 <;> (try simp_all)
        all_goals (split_ifs <;> simp_all)

/-- The whole AI-merge fold never changes the person slot when the
override guard is active. -/
theorem hq_ai_fold_keeps_person (origPh : Option String)
    (hph : phaseOutsidePersonAsking origPh = true)
    (ai : List (String × Option String)) (p : String) :
    ∀ (ks : List String) (ctx : Ctx), ctx.person = some p →
    (ks.foldl (hq_ai_step (some p) origPh ai) ctx).person = some p := by
  intro ks
  induction ks with
  | nil => intro ctx h; simpa using h
  | cons k ks ih =>
      intro ctx h
      exact ih _ (hq_ai_step_keeps_person origPh hph ai p ctx k h)

/-- Claim C2: for every turn in which the context already holds a non-null
person and the phase at turn start is outside the person-asking phases
(`asking_person`, `asking_person_cancel`, `asking_person_check`, `init`;
a missing phase also counts as outside), the slot-merging stage — the
deterministic extractor merge and the AI-fallback merge — leaves
`context["person"]` unchanged, whatever the extracted entities, the
missing-slot list and the AI boundary response are. -/
theorem claim_C2 (origPh : Option String) (msg : String) (e : Entities)
    (missing : List String) (aiRaw : Option (List (String × Option String)))
    (ctx : Ctx) (p : String) (hp : ctx.person = some p)
    (hph : phaseOutsidePersonAsking origPh = true) :
    (hq_merge_stage (some p) origPh msg e missing aiRaw ctx).person = some p := by
  simp only [hq_merge_stage]
  have h2 : (hq_merge_person (some p) origPh
      (hq_interpret msg e missing ctx).1.person ctx).person = some p := by
    unfold hq_merge_person
    cases (hq_interpret msg e missing ctx).1.person with
    | none => simpa using hp
    | some s => split_ifs with h1 <;> simp_all
  set ctx2 := hq_merge_person (some p) origPh (hq_interpret msg e missing ctx).1.person ctx
    with hctx2
  have h3 : (if isTruthyS (hq_interpret msg e missing ctx).1.date then
      { ctx2 with date := (hq_interpret msg e missing ctx).1.date } else ctx2).person = some p := by
    split <;> simpa using h2
  set ctx3 := if isTruthyS (hq_interpret msg e missing ctx).1.date then
      { ctx2 with date := (hq_interpret msg e missing ctx).1.date } else ctx2 with hctx3
  have h4 : (if isTruthyS (hq_interpret msg e missing ctx).1.time then
      { ctx3 with time := (hq_interpret msg e missing ctx).1.time } else ctx3).person = some p := by
    split <;> simpa using h3
  split
  · exact h4
  · exact hq_ai_fold_keeps_person origPh hph _ p _ _ h4

/-- Claim C2 witness: in phase `asking_date_check` with person
`"Dr. Smith"` already confirmed, a turn whose utterance contains the
noisy token `"available"` (with whatever the deterministic extractor
produces for it and any AI response) leaves the person unchanged. -/
theorem claim_C2_witness :
    phaseOutsidePersonAsking (some "asking_date_check") = true ∧
    (hq_merge_stage (some "Dr. Smith") (some "asking_date_check") "is he available tomorrow"
      (extract_entities_main noFuzzy wedJune11 "is he available tomorrow")
      ["date", "time"] (some [("date", some "2025-06-10"), ("time", some "10:00")])
      { intent := some "check_availability", phase := some "asking_date_check",
        person := some "Dr. Smith" }).person = some "Dr. Smith" := by
  exact ⟨by decide,
    claim_C2 (some "asking_date_check") "is he available tomorrow" _ _ _ _ "Dr. Smith" rfl
      (by decide)⟩

/-- Claim C7: the AI-fallback entity extractor treats the literal strings
`"null"`, `"NULL"`, `"unknown"` and the empty string as null; rejects a
date value that looks like a time-only string; rejects a time value
containing a month name or an ISO date pattern; normalizes flexible time
phrases to `"first available"`; and on a failed boundary call (exception,
timeout, undecodable response) maps every requested slot to null.  The
per-entry facts are stated on `processEntry`, the validation applied to
every decoded entry of a successful call. -/
theorem claim_C7 :
    (∀ missing : List String,
       extract_entities_with_ai missing none = missing.map (fun e => (e, none))) ∧
    (∀ (missing : List String) (entries : List (String × Option String))
       (kv : String × Option String), kv ∈ entries →
       (kv.1, processEntry kv.1 kv.2) ∈ extract_entities_with_ai missing (some entries)) ∧
    (∀ (k s : String), memW (lowerL s.data) nullStrings = true →
       processEntry k (some s) = none) ∧
    (∀ s : String, looksLikeTimeOnly s = true → processEntry "date" (some s) = none) ∧
    (∀ s : String, (searchRA monthWordRA (lowerL s.data) || hasIsoDate s.data) = true →
       processEntry "time" (some s) = none) ∧
    (∀ s : String, memW (lowerL s.data) nullStrings = false →
       (searchRA monthWordRA (lowerL s.data) || hasIsoDate s.data) = false →
       containsAny flexPhrases (lowerL s.data) = true →
       processEntry "time" (some s) = some "first available") := by
  refine ⟨fun missing => rfl, ?_, ?_, ?_, ?_, ?_⟩
  · intro missing entries kv hkv
    unfold extract_entities_with_ai
    exact List.mem_append_left _ (List.mem_map_of_mem _ hkv)
  · intro k s h
    unfold processEntry
    simp only [h]
    split_ifs <;> rfl
  · intro s h
    by_cases hm : memW (lowerL s.data) nullStrings = true
    · simp [processEntry, hm]
    · simp [processEntry, hm, h]
  · intro s h
    by_cases hm : memW (lowerL s.data) nullStrings = true
    · simp [processEntry, hm]
    · simp only [processEntry, hm]
      simp [h]
  · intro s h1 h2 h3
    have hne : s.isEmpty = false := by
      cases he : s.isEmpty with
      | false => rfl
      | true =>
          exfalso
          have hs : s = "" := (String.isEmpty_iff s).mp he
          subst hs
          simp [memW, nullStrings, lowerL] at h1
    unfold processEntry
    simp [h1, h2, h3, hne]

/-- Claim C7 witness: the conjuncts applied at concrete values — a failed
boundary call with two requested slots, the literal `"NULL"`, a time-only
date `"3:30 pm"`, a time value holding the date `"June 15, 2023"`, and the
flexible phrase `"anytime"`. -/
theorem claim_C7_witness :
    extract_entities_with_ai ["person", "date"] none = [("person", none), ("date", none)] ∧
    processEntry "person" (some "NULL") = none ∧
    processEntry "date" (some "3:30 pm") = none ∧
    processEntry "time" (some "June 15, 2023") = none ∧
    processEntry "time" (some "anytime") = some "first available" := by
  refine ⟨claim_C7.1 ["person", "date"], ?_, ?_, ?_, ?_⟩
  · exact claim_C7.2.2.1 "person" "NULL" (by decide)
  · exact claim_C7.2.2.2.1 "3:30 pm" (by decide)
  · exact claim_C7.2.2.2.2.1 "June 15, 2023" (by decide)
  · exact claim_C7.2.2.2.2.2 "anytime" (by decide) (by decide) (by decide)

/-- Claim C6: weekday resolution in the temporal resolver.  For every
weekday entry and every reference date (with a well-formed weekday
field), `"next <weekday>"` resolves to today plus
`(weekday - today.weekday()) mod 7` days with 0 replaced by 7;
`"this <weekday>"` resolves to today when that offset is 0 and otherwise
to the offset; a bare weekday name behaves like `"this"`; and with today
fixed to Wednesday 2025-06-11, `"next Monday"` and bare `"Monday"` both
resolve to today + 5 days. -/
theorem claim_C6 :
    (∀ (fuzzy : String → Option PyDate) (today : PyDate),
      ∀ p ∈ weekdaysIdx,
        parse_relative_date fuzzy today (String.mk ("next ".data ++ p.1)) =
          some (addDays today
            (if daysAheadOf p.2 today.weekday == 0 then 7 else daysAheadOf p.2 today.weekday)) ∧
        parse_relative_date fuzzy today (String.mk ("this ".data ++ p.1)) =
          some (if daysAheadOf p.2 today.weekday == 0 then today
                else addDays today (daysAheadOf p.2 today.weekday)) ∧
        parse_relative_date fuzzy today (String.mk p.1) =
          some (if daysAheadOf p.2 today.weekday == 0 then today
                else addDays today (daysAheadOf p.2 today.weekday))) ∧
    (∀ fuzzy : String → Option PyDate,
      parse_relative_date fuzzy wedJune11 "next monday" = some (addDays wedJune11 5) ∧
      parse_relative_date fuzzy wedJune11 "monday" = some (addDays wedJune11 5)) := by
  constructor
  · intro fuzzy today p hp
    simp only [weekdaysIdx, List.mem_cons, List.not_mem_nil, or_false] at hp
    rcases hp with rfl | rfl | rfl | rfl | rfl | rfl | rfl <;> exact ⟨rfl, rfl, rfl⟩
  · intro fuzzy
    exact ⟨rfl, rfl⟩

/-- Claim C6 witness: the general conjunct applied at Wednesday
2025-06-11 and the monday entry, discharging the membership hypothesis
there. -/
theorem claim_C6_witness :
    parse_relative_date noFuzzy wedJune11 (String.mk ("next ".data ++ "monday".data)) =
      some (addDays wedJune11
        (if daysAheadOf 0 wedJune11.weekday == 0 then 7 else daysAheadOf 0 wedJune11.weekday)) := by
  exact (claim_C6.1 noFuzzy wedJune11 ("monday".data, 0) (by decide)).1

/-! ### Lemmas about substring containment and the time parsers,
leading to claim C10. -/

/-- A prefix is contained. -/
theorem containsSeq_of_isPrefixOf {n h : List Char} (hp : n.isPrefixOf h = true) :
    containsSeq n h = true := by
  cases h with
  | nil => simpa [containsSeq] using hp
  | cons c t => simp [containsSeq, hp]

/-- Containment is preserved by extending the haystack on the left. -/
theorem containsSeq_cons {n t : List Char} (c : Char) (h : containsSeq n t = true) :
    containsSeq n (c :: t) = true := by
  simp [containsSeq, h]

/-- Containment in a `drop` lifts to the whole list. -/
theorem containsSeq_of_drop {n : List Char} :
    ∀ (k : Nat) (l : List Char), containsSeq n (l.drop k) = true → containsSeq n l = true := by
  intro k
  induction k with
  | zero => intro l h; simpa using h
  | succ k ih =>
      intro l h
      cases l with
      | nil => simpa using h
      | cons c t => exact containsSeq_cons c (ih t h)

/-- Containment in a `dropWhile` lifts to the whole list. -/
theorem containsSeq_of_dropWhile {n : List Char} (p : Char → Bool) :
    ∀ l : List Char, containsSeq n (l.dropWhile p) = true → containsSeq n l = true := by
  intro l
  induction l with
  | nil => intro h; simpa using h
  | cons c t ih =>
      intro h
      by_cases hc : p c = true
      · rw [List.dropWhile_cons_of_pos hc] at h
        exact containsSeq_cons c (ih h)
      · rwa [List.dropWhile_cons_of_neg (by simpa using hc)] at h

/-- The am/pm markers as strings. -/
def ampmMarkers : List String := ["am", "pm", "a.m.", "p.m."]

/-- The matched period is one of the four markers and is contained in the
text it was parsed from. -/
def MarkerIn (mk cs : List Char) : Prop :=
  (∃ s ∈ ampmMarkers, mk = s.data) ∧ containsSeq mk cs = true

/-- The period parser yields a marker contained at the front. -/
theorem parsePeriodL_marker {cs mk : List Char} (h : parsePeriodL cs = some mk) :
    MarkerIn mk cs := by
  unfold parsePeriodL at h
  split_ifs at h with h1 h2 h3 h4 <;>
    (injection h with h; subst h) <;>
    refine ⟨⟨_, by simp [ampmMarkers], rfl⟩, containsSeq_of_isPrefixOf (by assumption)⟩

/-- Lifting a marker along a haystack extension. -/
theorem MarkerIn.lift {mk t l : List Char}
    (h : MarkerIn mk t) (hc : containsSeq mk t = true → containsSeq mk l = true) :
    MarkerIn mk l :=
  ⟨h.1, hc h.2⟩

theorem tpAfterMin_marker {h m h' m' : Nat} {cs mk : List Char}
    (hp : tpAfterMin h m cs = some (h', m', mk)) : MarkerIn mk cs := by
  unfold tpAfterMin at hp
  cases hpp : parsePeriodL (cs.dropWhile isSpaceC) with
  | none => rw [hpp] at hp; exact Option.noConfusion hp
  | some mk0 =>
      rw [hpp] at hp
      injection hp with hp
      have h2 : mk0 = mk := congrArg (fun x => x.2.2) hp
      subst h2
      exact (parsePeriodL_marker hpp).lift (containsSeq_of_dropWhile isSpaceC cs)

theorem grabD2_shape {cs : List Char} {v : Nat} {t : List Char}
    (h : grabD2 cs = some (v, t)) : ∃ a b, cs = a :: b :: t := by
  rcases cs with _ | ⟨a, _ | ⟨b, t2⟩⟩
  · exact Option.noConfusion h
  · exact Option.noConfusion h
  · simp only [grabD2] at h
    split_ifs at h with hd
    injection h with h
    rw [Prod.mk.injEq] at h
    obtain ⟨h1, h2⟩ := h
    subst h2
    exact ⟨a, b, rfl⟩

theorem grabD1_shape {cs : List Char} {v : Nat} {t : List Char}
    (h : grabD1 cs = some (v, t)) : ∃ a, cs = a :: t := by
  rcases cs with _ | ⟨a, t2⟩
  · exact Option.noConfusion h
  · simp only [grabD1] at h
    split_ifs at h with hd
    injection h with h
    rw [Prod.mk.injEq] at h
    obtain ⟨h1, h2⟩ := h
    subst h2
    exact ⟨a, rfl⟩

theorem tpMinOpt_marker {h h' m' : Nat} {cs mk : List Char}
    (hp : tpMinOpt h cs = some (h', m', mk)) : MarkerIn mk cs := by
  unfold tpMinOpt at hp
  rcases ho : (match grabD2 cs with
   | some (m, t) => tpAfterMin h m t
   | none => none) with _ | r
  · rw [ho] at hp
    simp only [Option.none_orElse] at hp
    exact tpAfterMin_marker hp
  · rw [ho] at hp
    simp only [Option.some_orElse] at hp
    injection hp with hp
    subst hp
    cases hg : grabD2 cs with
    | none => rw [hg] at ho; exact Option.noConfusion ho
    | some vt =>
        rw [hg] at ho
        obtain ⟨v, t⟩ := vt
        obtain ⟨a, b, rfl⟩ := grabD2_shape hg
        exact (tpAfterMin_marker ho).lift
          (fun hh => containsSeq_cons a (containsSeq_cons b hh))

theorem tpSepOpt_marker {h h' m' : Nat} {cs mk : List Char}
    (hp : tpSepOpt h cs = some (h', m', mk)) : MarkerIn mk cs := by
  rcases cs with _ | ⟨c, t⟩
  · exact tpMinOpt_marker hp
  · simp only [tpSepOpt] at hp
    split_ifs at hp with hc
    · rcases ho : tpMinOpt h t with _ | r
      · rw [ho] at hp
        simp only [Option.none_orElse] at hp
        exact tpMinOpt_marker hp
      · rw [ho] at hp
        simp only [Option.some_orElse] at hp
        injection hp with hp
        subst hp
        exact (tpMinOpt_marker ho).lift (containsSeq_cons c)
    · exact tpMinOpt_marker hp

theorem tpStart_marker {h' m' : Nat} {cs mk : List Char}
    (hp : tpStart cs = some (h', m', mk)) : MarkerIn mk cs := by
  unfold tpStart at hp
  rcases ho : (match grabD2 cs with
   | some (h, t) => tpSepOpt h t
   | none => none) with _ | r
  · rw [ho] at hp
    simp only [Option.none_orElse] at hp
    cases hg : grabD1 cs with
    | none => rw [hg] at hp; exact Option.noConfusion hp
    | some vt =>
        rw [hg] at hp
        obtain ⟨v, t⟩ := vt
        obtain ⟨a, rfl⟩ := grabD1_shape hg
        exact (tpSepOpt_marker hp).lift (containsSeq_cons a)
  · rw [ho] at hp
    simp only [Option.some_orElse] at hp
    injection hp with hp
    subst hp
    cases hg : grabD2 cs with
    | none => rw [hg] at ho; exact Option.noConfusion ho
    | some vt =>
        rw [hg] at ho
        obtain ⟨v, t⟩ := vt
        obtain ⟨a, b, rfl⟩ := grabD2_shape hg
        exact (tpSepOpt_marker ho).lift
          (fun hh => containsSeq_cons a (containsSeq_cons b hh))

theorem search12_marker {h' m' : Nat} {mk : List Char} :
    ∀ {s : List Char}, search12 s = some (h', m', mk) → MarkerIn mk s := by
  intro s
  induction s with
  | nil => intro h; exact tpStart_marker h
  | cons c t ih =>
      intro h
      unfold search12 scanPos at h
      cases hf : tpStart (c :: t) with
      | some r => rw [hf] at h; injection h with h; subst h; exact tpStart_marker hf
      | none =>
          rw [hf] at h
          exact ((ih (by simpa [search12] using h)).lift (containsSeq_cons c))

theorem tsAfter_marker {h h' : Nat} {t mk : List Char}
    (hp : tsAfter h t = some (h', mk)) : MarkerIn mk t := by
  unfold tsAfter at hp
  cases hpp : parsePeriodL (t.dropWhile isSpaceC) with
  | none => rw [hpp] at hp; exact Option.noConfusion hp
  | some mk0 =>
      rw [hpp] at hp
      injection hp with hp
      have h2 : mk0 = mk := congrArg Prod.snd hp
      subst h2
      exact (parsePeriodL_marker hpp).lift (containsSeq_of_dropWhile isSpaceC t)

theorem tsStart_marker {h' : Nat} {cs mk : List Char}
    (hp : tsStart cs = some (h', mk)) : MarkerIn mk cs := by
  unfold tsStart at hp
  rcases ho : (match grabD2 cs with
   | some (h, t) => tsAfter h t
   | none => none) with _ | r
  · rw [ho] at hp
    simp only [Option.none_orElse] at hp
    cases hg : grabD1 cs with
    | none => rw [hg] at hp; exact Option.noConfusion hp
    | some vt =>
        rw [hg] at hp
        obtain ⟨v, t⟩ := vt
        obtain ⟨a, rfl⟩ := grabD1_shape hg
        exact (tsAfter_marker hp).lift (containsSeq_cons a)
  · rw [ho] at hp
    simp only [Option.some_orElse] at hp
    injection hp with hp
    subst hp
    cases hg : grabD2 cs with
    | none => rw [hg] at ho; exact Option.noConfusion ho
    | some vt =>
        rw [hg] at ho
        obtain ⟨v, t⟩ := vt
        obtain ⟨a, b, rfl⟩ := grabD2_shape hg
        exact (tsAfter_marker ho).lift
          (fun hh => containsSeq_cons a (containsSeq_cons b hh))

theorem searchSimple_marker {h' : Nat} {mk : List Char} :
    ∀ {s : List Char}, searchSimple s = some (h', mk) → MarkerIn mk s := by
  intro s
  induction s with
  | nil => intro h; exact tsStart_marker h
  | cons c t ih =>
      intro h
      unfold searchSimple scanPos at h
      cases hf : tsStart (c :: t) with
      | some r => rw [hf] at h; injection h with h; subst h; exact tsStart_marker hf
      | none =>
          rw [hf] at h
          exact ((ih (by simpa [searchSimple] using h)).lift (containsSeq_cons c))

/-- The 12-to-24-hour conversion keeps hours at most 23. -/
theorem convertHour_le_23 {h : Nat} (mk : List Char) (hh : h ≤ 12) :
    convertHour h mk ≤ 23 := by
  unfold convertHour
  split_ifs with h1 h2 <;> simp_all <;> omega

/-- Output shape of the hour-only fallback. -/
theorem extractTimeSimple_shape (tl : List Char) :
    extractTimeSimple tl = none ∨
    ∃ h m : Nat, h ≤ 23 ∧ m ≤ 59 ∧ extractTimeSimple tl = some (String.mk (fmtHM h m)) := by
  unfold extractTimeSimple
  cases hs : searchSimple tl with
  | none => exact Or.inl rfl
  | some r =>
      obtain ⟨h, mk⟩ := r
      by_cases hr : (1 ≤ h && h ≤ 12) = true
      · right
        have h12 : h ≤ 12 := by
          simp only [Bool.and_eq_true, decide_eq_true_eq] at hr
          exact hr.2
        exact ⟨convertHour h mk, 0, convertHour_le_23 mk h12, by omega, by simp [hr]⟩
      · left
        simp [hr]

/-- Claim C10: for every input the deterministic time extractor returns
either null or a zero-padded `HH:MM` with `0 ≤ HH ≤ 23` and
`0 ≤ MM ≤ 59`; a non-null answer requires an am/pm marker (one of `am`,
`pm`, `a.m.`, `p.m.`) somewhere in the lowercased input; and `"12 am"`
yields `"00:00"` while `"12 pm"` yields `"12:00"`. -/
theorem claim_C10 :
    (∀ s : String, ee_extract_time s = none ∨
      ∃ h m : Nat, h ≤ 23 ∧ m ≤ 59 ∧ ee_extract_time s = some (String.mk (fmtHM h m))) ∧
    (∀ (s : String) (t : String), ee_extract_time s = some t →
      ∃ mark ∈ ampmMarkers, containsSeq mark.data (lowerL s.data) = true) ∧
    ee_extract_time "12 am" = some "00:00" ∧
    ee_extract_time "12 pm" = some "12:00" := by
  refine ⟨?_, ?_, rfl, rfl⟩
  · intro s
    unfold ee_extract_time
    simp only []
    cases hs : search12 (lowerL s.data) with
    | none => exact extractTimeSimple_shape (lowerL s.data)
    | some r =>
        obtain ⟨h, m, mk⟩ := r
        simp only []
        by_cases hr : (1 ≤ h && h ≤ 12 && m ≤ 59) = true
        · right
          have hr2 := hr
          simp only [Bool.and_eq_true, decide_eq_true_eq] at hr2
          exact ⟨convertHour h mk, m, convertHour_le_23 mk hr2.1.2, hr2.2,
            by rw [if_pos hr]⟩
        · rw [if_neg hr]
          exact extractTimeSimple_shape (lowerL s.data)
  · intro s t ht
    unfold ee_extract_time at ht
    simp only [] at ht
    cases hs : search12 (lowerL s.data) with
    | none =>
        rw [hs] at ht
        simp only [] at ht
        cases hs2 : searchSimple (lowerL s.data) with
        | none => rw [extractTimeSimple, hs2] at ht; exact absurd ht (by simp)
        | some r =>
            obtain ⟨h2, mk2⟩ := r
            obtain ⟨⟨mark, hmark, rfl⟩, hc⟩ := searchSimple_marker hs2
            exact ⟨mark, hmark, hc⟩
    | some r =>
        obtain ⟨h, m, mk⟩ := r
        rw [hs] at ht
        simp only [] at ht
        by_cases hr : (1 ≤ h && h ≤ 12 && m ≤ 59) = true
        · obtain ⟨⟨mark, hmark, rfl⟩, hc⟩ := search12_marker hs
          exact ⟨mark, hmark, hc⟩
        · rw [if_neg hr] at ht
          cases hs2 : searchSimple (lowerL s.data) with
          | none => rw [extractTimeSimple, hs2] at ht; exact absurd ht (by simp)
          | some r2 =>
              obtain ⟨h2, mk2⟩ := r2
              obtain ⟨⟨mark, hmark, rfl⟩, hc⟩ := searchSimple_marker hs2
              exact ⟨mark, hmark, hc⟩

/-- Claim C10 witness: the marker-necessity conjunct applied at
`"12 am"`, discharging its hypothesis there. -/
theorem claim_C10_witness :
    ∃ mark ∈ ampmMarkers, containsSeq mark.data (lowerL "12 am".data) = true := by
  exact claim_C10.2.1 "12 am" "00:00" rfl


/-- Claim C4 counterexample: the claim says every utterance matching a
word of the ten-word affirmative set finalizes the confirmation, but at
phase `confirming` the code tests only `yes`/`correct`/`right`
(main.py line 984): the affirmative word `okay` is sent to
`asking_change` instead of `completed`. -/
theorem claim_C4_counterexample :
    ("okay".data ∈ affirmativeWords) ∧
    containsSeq "okay".data (lowerL "okay".data) = true ∧
    (process_appointment_intent "okay" ctxC4 "2025-06-11T12:00:00").ctx.phase
      = some "asking_change" :=
  ⟨by decide, by decide, rfl⟩

/-- Claim C4, corrected: with all three slots filled and no
cancel-current hijack, (a) at `(schedule_appointment, confirming)` the
phase becomes `completed` exactly when the message contains `yes`,
`correct` or `right`, and `asking_change` otherwise; (b) at
`(cancel_appointment, confirming_cancel)` the phase becomes `completed`
exactly when the message contains a word of the ten-word affirmative
set, and otherwise stays `confirming_cancel` (not
`asking_change_cancel`); (c) at `(schedule_appointment, asking_change)`
the keyword families person/who/name, date/day/when, time/hour are
tested in that order and the first hit clears exactly its own slot and
re-asks it, with no hit restarting at `init`. -/
theorem claim_C4 (msg : String) (ctx : Ctx) (now : String)
    (hnc : containsAny cancelCurrentPatterns (lowerL msg.data) = false)
    (hp : isTruthyS ctx.person = true) (hd : isTruthyS ctx.date = true)
    (ht : isTruthyS ctx.time = true) :
    (ctx.intent = some "schedule_appointment" → ctx.phase = some "confirming" →
      (process_appointment_intent msg ctx now).ctx.phase =
        (if (containsSeq "yes".data (lowerL msg.data)
            || containsSeq "correct".data (lowerL msg.data)
            || containsSeq "right".data (lowerL msg.data)) = true
         then some "completed" else some "asking_change")) ∧
    (ctx.intent = some "cancel_appointment" → ctx.phase = some "confirming_cancel" →
      (process_appointment_intent msg ctx now).ctx.phase =
        (if containsAny affirmativeWords (lowerL msg.data) = true
         then some "completed" else some "confirming_cancel")) ∧
    (ctx.intent = some "schedule_appointment" → ctx.phase = some "asking_change" →
      (((containsSeq "person".data (lowerL msg.data) || containsSeq "who".data (lowerL msg.data)
         || containsSeq "name".data (lowerL msg.data)) = true →
        (process_appointment_intent msg ctx now).ctx =
          { ctx with phase := some "asking_person", person := none }) ∧
       ((containsSeq "person".data (lowerL msg.data) || containsSeq "who".data (lowerL msg.data)
         || containsSeq "name".data (lowerL msg.data)) = false →
        (containsSeq "date".data (lowerL msg.data) || containsSeq "day".data (lowerL msg.data)
         || containsSeq "when".data (lowerL msg.data)) = true →
        (process_appointment_intent msg ctx now).ctx =
          { ctx with phase := some "asking_date", date := none }) ∧
       ((containsSeq "person".data (lowerL msg.data) || containsSeq "who".data (lowerL msg.data)
         || containsSeq "name".data (lowerL msg.data)) = false →
        (containsSeq "date".data (lowerL msg.data) || containsSeq "day".data (lowerL msg.data)
         || containsSeq "when".data (lowerL msg.data)) = false →
        (containsSeq "time".data (lowerL msg.data) || containsSeq "hour".data (lowerL msg.data)) = true →
        (process_appointment_intent msg ctx now).ctx =
          { ctx with phase := some "asking_time", time := none }) ∧
       ((containsSeq "person".data (lowerL msg.data) || containsSeq "who".data (lowerL msg.data)
         || containsSeq "name".data (lowerL msg.data)) = false →
        (containsSeq "date".data (lowerL msg.data) || containsSeq "day".data (lowerL msg.data)
         || containsSeq "when".data (lowerL msg.data)) = false →
        (containsSeq "time".data (lowerL msg.data) || containsSeq "hour".data (lowerL msg.data)) = false →
        (process_appointment_intent msg ctx now).ctx = { ctx with phase := some "init" }))) := by
  refine ⟨?_, ?_, ?_⟩
  · intro hi hph
    unfold process_appointment_intent paiBody
    simp only [hi, hph, Option.getD_some]
    simp only [show (("confirming" == "asking_time")) = false from rfl, Bool.false_and,
      Bool.false_eq_true, if_false]
    simp only [hi, hph, Option.getD_some]
    simp only [hnc, Bool.false_and, Bool.false_eq_true, if_false]
    simp only [show (("schedule_appointment" == "check_availability")) = false from rfl,
      show (("schedule_appointment" == "cancel_appointment")) = false from rfl,
      Bool.false_eq_true, if_false]
    unfold paiChain
    simp only [show (String.isEmpty "confirming") = false from rfl,
      show (("confirming" == "init")) = false from rfl,
      show (("confirming" == "asking_person_check")) = false from rfl,
      show (("confirming" == "asking_date_check")) = false from rfl,
      show (("confirming" == "showing_availability")) = false from rfl,
      show (("confirming" == "asking_person_cancel")) = false from rfl,
      show (("confirming" == "asking_date_cancel")) = false from rfl,
      show (("confirming" == "asking_time_cancel")) = false from rfl,
      show (("confirming" == "confirming_cancel")) = false from rfl,
      show (("confirming" == "asking_person")) = false from rfl,
      show (("confirming" == "asking_date")) = false from rfl,
      show (("confirming" == "asking_time")) = false from rfl,
      show (("confirming" == "confirming")) = true from rfl,
      Bool.false_or, Bool.false_and, Bool.false_eq_true, Bool.true_eq_false, if_false, if_true]
    simp only [hp, hd, ht, Bool.and_self, Bool.true_and, if_true]
    by_cases hc : (containsSeq "yes".data (lowerL msg.data)
        || containsSeq "correct".data (lowerL msg.data)
        || containsSeq "right".data (lowerL msg.data)) = true
    · rw [if_pos hc, if_pos hc]
      simp [setCompletedMarkers]
    · rw [if_neg hc, if_neg hc]
      simp
  · intro hi hph
    unfold process_appointment_intent paiBody
    simp only [hi, hph, Option.getD_some]
    simp only [show (("confirming_cancel" == "asking_time")) = false from rfl, Bool.false_and,
      Bool.false_eq_true, if_false]
    simp only [hi, hph, Option.getD_some]
    simp only [hnc, Bool.false_and, Bool.false_eq_true, if_false]
    simp only [show (("cancel_appointment" == "check_availability")) = false from rfl,
      show (("cancel_appointment" == "cancel_appointment")) = true from rfl,
      Bool.false_eq_true, if_false, if_true]
    simp only [hp, hd, ht, Bool.not_true, Bool.false_eq_true, if_false]
    simp only [show (("confirming_cancel" == "confirming_cancel")) = true from rfl, Bool.true_and]
    by_cases ha : containsAny affirmativeWords (lowerL msg.data) = true
    · rw [if_pos ha, if_pos ha]
      simp [setCompletedMarkers]
    · rw [if_neg ha, if_neg ha]
  · intro hi hph
    unfold process_appointment_intent paiBody
    simp only [hi, hph, Option.getD_some]
    simp only [show (("asking_change" == "asking_time")) = false from rfl, Bool.false_and,
      Bool.false_eq_true, if_false]
    simp only [hi, hph, Option.getD_some]
    simp only [hnc, Bool.false_and, Bool.false_eq_true, if_false]
    simp only [show (("schedule_appointment" == "check_availability")) = false from rfl,
      show (("schedule_appointment" == "cancel_appointment")) = false from rfl,
      Bool.false_eq_true, if_false]
    unfold paiChain
    simp only [show (String.isEmpty "asking_change") = false from rfl,
      show (("asking_change" == "init")) = false from rfl,
      show (("asking_change" == "asking_person_check")) = false from rfl,
      show (("asking_change" == "asking_date_check")) = false from rfl,
      show (("asking_change" == "showing_availability")) = false from rfl,
      show (("asking_change" == "asking_person_cancel")) = false from rfl,
      show (("asking_change" == "asking_date_cancel")) = false from rfl,
      show (("asking_change" == "asking_time_cancel")) = false from rfl,
      show (("asking_change" == "confirming_cancel")) = false from rfl,
      show (("asking_change" == "asking_person")) = false from rfl,
      show (("asking_change" == "asking_date")) = false from rfl,
      show (("asking_change" == "asking_time")) = false from rfl,
      show (("asking_change" == "confirming")) = false from rfl,
      show (("asking_change" == "asking_change")) = true from rfl,
      show (("schedule_appointment" == "cancel_appointment")) = false from rfl,
      show (("asking_change" == "completed")) = false from rfl,
      Bool.false_or, Bool.true_or, Bool.false_and, Bool.false_eq_true, Bool.true_eq_false,
      if_false, if_true]
    refine ⟨?_, ?_, ?_, ?_⟩
    · intro h1
      rw [if_pos h1]
      simp [hi]
    · intro h1 h2
      simp only [h1, Bool.false_eq_true, if_false, h2, if_true]
      simp [hi]
    · intro h1 h2 h3
      simp only [h1, Bool.false_eq_true, if_false, h2, h3, if_true]
      simp [hi]
    · intro h1 h2 h3
      simp only [h1, Bool.false_eq_true, if_false, h2, h3]
      simp [hi]


/-- Claim C4 witness: the corrected conjunct (a) applied at message
`"yes"` in the filled confirming context, discharging every hypothesis
there. -/
theorem claim_C4_witness :
    (process_appointment_intent "yes" ctxC4 "2025-06-11T12:00:00").ctx.phase =
      (if (containsSeq "yes".data (lowerL "yes".data)
          || containsSeq "correct".data (lowerL "yes".data)
          || containsSeq "right".data (lowerL "yes".data)) = true
       then some "completed" else some "asking_change") :=
  (claim_C4 "yes" ctxC4 "2025-06-11T12:00:00" (by decide) (by decide) (by decide)
    (by decide)).1 rfl rfl


set_option maxHeartbeats 1000000 in
/-- Every branch of the phase chain that ends at phase `completed` also
sets the completion markers with the current timestamp. -/
theorem paiBody_completed_markers (msg : String) (c : Ctx) (now : String)
    (h : (paiBody msg c now).ctx.phase = some "completed") :
    (paiBody msg c now).ctx.ready_for_new_topic = true ∧
    (paiBody msg c now).ctx.appointment_completed_at = some now := by
  unfold paiBody at h ⊢
  simp only [] at h ⊢
  split_ifs at h ⊢ <;> simp_all [setCompletedMarkers]

/-- Claim C8 counterexample: the claim says the next turn starting from
phase `completed` resets the context to empty before any further
classification, but the availability switch of `process_message`
(main.py lines 1366-1377) runs before the completed-phase reset and
carries the confirmed person (and date) of the finished appointment into
the fresh `check_availability` context. -/
theorem claim_C8_counterexample :
    ctxC8.phase = some "completed" ∧
    process_message_head noFuzzy wedJune11 "check availability" ctxC8 =
      .mainFlow { emptyCtx with intent := some "check_availability", phase := some "init",
                                person := some "John" } ∧
    (process_message_head noFuzzy wedJune11 "check availability" ctxC8).ctxOf
      ≠ some emptyCtx :=
  ⟨rfl, rfl, by decide⟩

/-- Claim C8, corrected: (1) whenever a turn of the phase chain ends
with phase `completed`, the resulting context carries
`ready_for_new_topic = true` and `appointment_completed_at` set to the
current timestamp; (2) a turn starting at phase `completed` resets the
context to empty only on the plain path: when the message is nonempty
and triggers none of the summary return, the availability switch, the
cancel switch, the knowledge bypass and the new-appointment reset
(each of which runs first and keeps or rebuilds its own context). -/
theorem claim_C8 :
    (∀ (msg : String) (ctx : Ctx) (now : String),
      (process_appointment_intent msg ctx now).ctx.phase = some "completed" →
      (process_appointment_intent msg ctx now).ctx.ready_for_new_topic = true ∧
      (process_appointment_intent msg ctx now).ctx.appointment_completed_at = some now) ∧
    (∀ (fz : String → Option PyDate) (today : PyDate) (msg : String) (ctx : Ctx),
      ctx.phase = some "completed" →
      msg.isEmpty = false →
      check_if_summary_requested msg = false →
      (containsSeq "check availability".data (lowerL msg.data)
        || containsSeq "check availibility".data (lowerL msg.data)
        || containsSeq "availability".data (lowerL msg.data)) = false →
      (containsSeq "cancel".data (lowerL msg.data)
        && containsSeq "appointment".data (lowerL msg.data)) = false →
      (identify_intent msg == "knowledge") = false →
      (knowledgeIndicators.any fun k => containsSeq k (lowerL msg.data)) = false →
      (newApptKeywords.any fun k => containsSeq k (lowerL msg.data)) = false →
      process_message_head fz today msg ctx = .mainFlow emptyCtx) := by
  constructor
  · intro msg ctx now h
    unfold process_appointment_intent at h ⊢
    exact paiBody_completed_markers msg _ now h
  · intro fz today msg ctx hph hne hsum hav hcan hkn hki hna
    unfold process_message_head
    simp only [hne, Bool.false_eq_true, if_false, hsum, hav, hcan, hkn, hki, hna]
    by_cases hsd : containsAny seeDoctorPatterns (lowerL msg.data) = true
    · simp [hsd, hph]
    · simp [hsd, hph]

/-- Claim C8 witness: both corrected parts applied at concrete inputs, a
completing `"yes"` turn and a benign `"hello"` turn from the completed
context, discharging every hypothesis there. -/
theorem claim_C8_witness :
    ((process_appointment_intent "yes" ctxC4 "2025-06-11T12:00:00").ctx.ready_for_new_topic
        = true ∧
     (process_appointment_intent "yes" ctxC4 "2025-06-11T12:00:00").ctx.appointment_completed_at
        = some "2025-06-11T12:00:00") ∧
    process_message_head noFuzzy wedJune11 "hello" ctxC8 = .mainFlow emptyCtx :=
  ⟨claim_C8.1 "yes" ctxC4 "2025-06-11T12:00:00" rfl,
   claim_C8.2 noFuzzy wedJune11 "hello" ctxC8 rfl rfl rfl rfl rfl rfl rfl rfl⟩

end Voicebot
